import Mathlib

/-!
Verification development for the retail point-of-sale back office
(promotion engine, invoice sequence allocator, stock ledger / FIFO batch
consumption, sale-completion pipeline, returns processor, batch receiving).

Monetary values are modelled as rationals; `quantize2` models
`Decimal.quantize(Decimal('0.01'), ROUND_HALF_UP)` (round half away from
zero to two decimal places).  Machine integers are modelled as `Int`/`Nat`.
Database state is passed explicitly; a raised exception inside the single
enclosing transaction is modelled as an `Except` error, and the route-level
handler rolls back by returning the original state.
-/

namespace Bill

/-- Rounding half-up (ties away from zero) to two decimal places:
the model of `Decimal.quantize(Decimal('0.01'), rounding=ROUND_HALF_UP)`. -/
def quantize2 (x : ℚ) : ℚ :=
  if 0 ≤ x then (⌊x * 100 + 1/2⌋ : ℚ) / 100
  else -((⌊(-x) * 100 + 1/2⌋ : ℚ) / 100)

/-! ## Promotion engine (`app/promotions/engine.py`, `app/promotions/models.py`) -/

/-- The four known promotion parameter schemas (`Promotion.params` JSON blob,
tagged by `promo_type`); `unknown` stands for any other `promo_type` string,
which `evaluate_promotions` skips. -/
inductive PromoParams where
  | percentage_item (product_ids : List ℕ) (percent : ℚ)
  | fixed_item (product_ids : List ℕ) (amount : ℚ)
  | bill_percentage (percent : ℚ)
  | buy_x_get_y (product_id : ℕ) (buy_qty : ℕ) (free_qty : ℕ)
  | unknown
deriving DecidableEq, Repr

/-- A `Promotion` row.  Dates are day ordinals (`Option ℤ`, `none` = NULL). -/
structure Promotion where
  id : ℕ
  name : String
  params : PromoParams
  start_date : Option ℤ
  end_date : Option ℤ
  is_active : Bool
  max_uses : Option ℕ
  current_uses : ℕ
  stackable : Bool
deriving DecidableEq, Repr

/-- `Promotion.is_valid_today`: active, under its use cap, and today within
`[start_date, end_date]` (open-ended on a NULL side). -/
def is_valid_today (today : ℤ) (p : Promotion) : Bool :=
  if ¬ p.is_active then false
  else if h : p.max_uses.isSome then
    if p.current_uses ≥ p.max_uses.get h then false
    else is_valid_dates today p
  else is_valid_dates today p
where
  /-- Date-window part of the validity check. -/
  is_valid_dates (today : ℤ) (p : Promotion) : Bool :=
    if hs : p.start_date.isSome then
      if today < p.start_date.get hs then false
      else (match p.end_date with
            | some e => decide (today ≤ e)
            | none => true)
    else (match p.end_date with
          | some e => decide (today ≤ e)
          | none => true)

/-- One line of the session cart (`app/billing/cart.py` structure):
price and GST snapshot plus an integer quantity. -/
structure CartItem where
  price : ℚ
  quantity : ℕ
  gst_percent : ℕ
  weight_kg : Option ℚ := none
  is_weighed : Bool := false
deriving DecidableEq, Repr

/-- The cart: product id keyed lines, in insertion order (a Python dict). -/
abbrev Cart := List (ℕ × CartItem)

/-- `_handle_percentage_item`: percentage discount on the selected products,
quantized per line. -/
def handle_percentage_item (product_ids : List ℕ) (percent : ℚ) (cart : Cart) : ℚ :=
  cart.foldl
    (fun disc line =>
      if line.1 ∈ product_ids then
        disc + quantize2 (quantize2 (line.2.price * line.2.quantity) * percent / 100)
      else disc) 0

/-- `_handle_fixed_item`: fixed amount off each selected line, capped at the
line total. -/
def handle_fixed_item (product_ids : List ℕ) (amount : ℚ) (cart : Cart) : ℚ :=
  cart.foldl
    (fun disc line =>
      if line.1 ∈ product_ids then
        disc + min amount (quantize2 (line.2.price * line.2.quantity))
      else disc) 0

/-- `_handle_bill_percentage`: percentage off the whole cart subtotal. -/
def handle_bill_percentage (percent : ℚ) (cart_subtotal : ℚ) : ℚ :=
  quantize2 (cart_subtotal * percent / 100)

/-- `_handle_buy_x_get_y`: free units are `(qty / (buy+free)) * free`,
valued at the unit price.  (Python raises `ZeroDivisionError` when
`buy_qty + free_qty = 0`; theorems about the returned value assume the
cycle is positive.) -/
def handle_buy_x_get_y (product_id : ℕ) (buy_qty free_qty : ℕ) (cart : Cart) : ℚ :=
  match cart.find? (fun line => line.1 = product_id) with
  | none => 0
  | some line =>
    let total_qty := line.2.quantity
    let cycle := buy_qty + free_qty
    let full_cycles := total_qty / cycle
    let free_units := full_cycles * free_qty
    quantize2 (line.2.price * (free_units : ℚ))

/-- `_cart_subtotal`: sum of per-line `quantize2 (price * qty)`. -/
def cart_subtotal (cart : Cart) : ℚ :=
  cart.foldl (fun total line => total + quantize2 (line.2.price * line.2.quantity)) 0

/-- One applied promotion entry (engine dataclass `AppliedEntry`). -/
structure AppliedEntry where
  promo_id : Option ℕ
  promo_name : String
  discount_amount : ℚ
  description : String
  stackable : Bool
deriving DecidableEq, Repr

/-- The individual (pre-quantize) discount a promotion computes on a cart. -/
def promoDiscount (cart : Cart) (subtotal : ℚ) (p : Promotion) : ℚ :=
  match p.params with
  | .percentage_item ids pct => handle_percentage_item ids pct cart
  | .fixed_item ids amt => handle_fixed_item ids amt cart
  | .bill_percentage pct => handle_bill_percentage pct subtotal
  | .buy_x_get_y pid b f => handle_buy_x_get_y pid b f cart
  | .unknown => 0

/-- The human-readable description string built for each promotion kind. -/
def promoDescription (p : Promotion) : String :=
  match p.params with
  | .percentage_item _ pct => toString pct ++ "% off selected item(s)"
  | .fixed_item _ amt => "Rs " ++ toString amt ++ " off selected item(s)"
  | .bill_percentage pct => toString pct ++ "% off entire bill"
  | .buy_x_get_y _ b f => "Buy " ++ toString b ++ " Get " ++ toString f ++ " Free"
  | .unknown => ""

/-- The `AppliedEntry` the engine would build for a promotion. -/
def mkEntry (cart : Cart) (subtotal : ℚ) (p : Promotion) : AppliedEntry :=
  { promo_id := some p.id
    promo_name := p.name
    discount_amount := quantize2 (promoDiscount cart subtotal p)
    description := promoDescription p
    stackable := p.stackable }

/-- Whether `evaluate_promotions` keeps a promotion as an entry: valid today,
a known promo type, and a strictly positive computed discount. -/
def keepsEntry (today : ℤ) (cart : Cart) (subtotal : ℚ) (p : Promotion) : Bool :=
  is_valid_today today p && !(p.params = PromoParams.unknown) &&
    decide (0 < promoDiscount cart subtotal p)

/-- The main collection loop of `evaluate_promotions`: the `AppliedEntry`
list built over the promotion list (stackable and non-stackable together,
in promotion order). -/
def collectEntries (today : ℤ) (cart : Cart) (subtotal : ℚ)
    (promotions : List Promotion) : List AppliedEntry :=
  (promotions.filter (keepsEntry today cart subtotal)).map (mkEntry cart subtotal)

/-- Python `max(entries, key=discount_amount)`: the first entry attaining the
maximal discount. -/
def firstMax (x : AppliedEntry) (xs : List AppliedEntry) : AppliedEntry :=
  xs.foldl (fun b e => if b.discount_amount < e.discount_amount then e else b) x

/-- Result of evaluating all promotions (engine dataclass `PromoResult`). -/
structure PromoResult where
  applied : List AppliedEntry
  total_discount : ℚ
  original_total : ℚ
  discounted_total : ℚ
deriving DecidableEq, Repr

/-- `evaluate_promotions(cart, promotions)` from `app/promotions/engine.py`,
with the current date made explicit. -/
def evaluate_promotions (today : ℤ) (cart : Cart) (promotions : List Promotion) :
    PromoResult :=
  if cart = [] ∨ promotions = [] then
    let subtotal := if cart = [] then 0 else cart_subtotal cart
    { applied := [], total_discount := 0,
      original_total := subtotal, discounted_total := subtotal }
  else
    let subtotal := cart_subtotal cart
    let entries := collectEntries today cart subtotal promotions
    let stackable_entries := entries.filter (fun e => e.stackable)
    let non_stackable_entries := entries.filter (fun e => !e.stackable)
    let stackable_total := (stackable_entries.map (fun e => e.discount_amount)).sum
    let final_entries :=
      match non_stackable_entries with
      | [] => stackable_entries
      | x :: xs =>
        let best := firstMax x xs
        if best.discount_amount > stackable_total then [best] else stackable_entries
    let total_discount₀ := quantize2 ((final_entries.map (fun e => e.discount_amount)).sum)
    let total_discount := min total_discount₀ subtotal
    let discounted_total := quantize2 (subtotal - total_discount)
    { applied := final_entries
      total_discount := total_discount
      original_total := subtotal
      discounted_total := discounted_total }

/-! ## Invoice sequence allocator (`app/billing/invoice.py`) -/

/-- The `invoice_sequences` table: at most one `(year, last_seq)` row per year. -/
abbrev SeqTable := List (ℕ × ℕ)

/-- Current `last_seq` stored for a year, if the row exists. -/
def lookupSeq (t : SeqTable) (year : ℕ) : Option ℕ :=
  (t.find? (fun r => r.1 = year)).map (fun r => r.2)

/-- Write `last_seq = n` for a year: update the existing row, or insert one. -/
def writeSeq (t : SeqTable) (year n : ℕ) : SeqTable :=
  if (t.find? (fun r => r.1 = year)).isSome then
    t.map (fun r => if r.1 = year then (year, n) else r)
  else t ++ [(year, n)]

/-- Zero-pad a sequence number to a minimum of four digits (`f"{n:04d}"`). -/
def padSeq (n : ℕ) : String :=
  let s := toString n
  if s.length < 4 then String.mk (List.replicate (4 - s.length) '0') ++ s else s

/-- `generate_invoice_number(db_session)`: lock (or insert with `last_seq=0`
and re-lock) the year's row, increment `last_seq` by one, and return the
formatted `"YYYY-NNNN"` string together with the updated table. -/
def generate_invoice_number (year : ℕ) (t : SeqTable) : String × SeqTable :=
  let cur := match lookupSeq t year with
             | some n => n
             | none => 0      -- row inserted with last_seq = 0, then re-locked
  let nxt := cur + 1
  (toString year ++ "-" ++ padSeq nxt, writeSeq t year nxt)

/-- Sequence of calls to the allocator within one year: the returned strings
and the final table. -/
def allocRun (year : ℕ) (t : SeqTable) : ℕ → List String × SeqTable
  | 0 => ([], t)
  | Nat.succ k =>
    let r := generate_invoice_number year t
    let rest := allocRun year r.2 k
    (r.1 :: rest.1, rest.2)

/-! ## Data model rows (`app/inventory/models.py`, `app/billing/models.py`,
`app/customers/models.py`) -/

/-- A `products` row (the fields the core touches). -/
structure Product where
  id : ℕ
  name : String
  price : ℚ
  stock : ℤ
  gst_percent : ℕ
deriving DecidableEq, Repr

/-- A `product_batches` row; `expiry_date` is a day ordinal, `none` = NULL. -/
structure ProductBatch where
  id : ℕ
  product_id : ℕ
  batch_number : String
  expiry_date : Option ℤ
  quantity : ℤ
  cost_price : Option ℚ
deriving DecidableEq, Repr

/-- A `customers` row. -/
structure Customer where
  id : ℕ
  points : ℤ
deriving DecidableEq, Repr

/-- A `gift_cards` row. -/
structure GiftCard where
  code : String
  balance : ℚ
  is_active : Bool
deriving DecidableEq, Repr

/-- A `sales` row (header). -/
structure SaleRow where
  invoice_number : String
  cashier_id : Option ℕ
  customer_id : Option ℕ
  total_amount : ℚ
  gst_total : ℚ
deriving DecidableEq, Repr

/-- `Sale.grand_total = total_amount + gst_total`. -/
def SaleRow.grand_total (s : SaleRow) : ℚ := s.total_amount + s.gst_total

/-- A `sale_items` row (snapshot of price and GST at sale time). -/
structure SaleItemRow where
  id : ℕ
  product_id : ℕ
  quantity : ℕ
  price_at_sale : ℚ
  gst_percent : ℕ
  subtotal : ℚ
  weight_kg : Option ℚ
  unit_label : Option String
deriving DecidableEq, Repr

/-- `SaleItem.gst_amount`: per-line GST, quantized. -/
def SaleItemRow.gst_amount (i : SaleItemRow) : ℚ :=
  quantize2 (i.subtotal * (i.gst_percent : ℚ) / 100)

/-- `SaleItem.subtotal_with_gst = subtotal + gst_amount`. -/
def SaleItemRow.subtotal_with_gst (i : SaleItemRow) : ℚ :=
  i.subtotal + i.gst_amount

/-- A `sale_payments` row (one tender leg of a sale). -/
structure SalePaymentRow where
  payment_method : String
  amount : ℚ
deriving DecidableEq, Repr

/-- An `inventory_logs` audit row. -/
structure InventoryLogRow where
  product_id : ℕ
  old_stock : ℤ
  new_stock : ℤ
  changed_by : Option ℕ
  reason : String
deriving DecidableEq, Repr

/-- An `applied_promotions` row (snapshot of an applied promotion). -/
structure AppliedPromotionRow where
  promotion_id : Option ℕ
  promo_name : String
  discount_amount : ℚ
  description : String
deriving DecidableEq, Repr

/-- A `cash_sessions` row (only the fields the completion path touches). -/
structure CashSessionRow where
  cashier_id : Option ℕ
  system_total : ℚ
  closed : Bool
deriving DecidableEq, Repr

/-- A `return_items` row. -/
structure ReturnItemRow where
  sale_item_id : ℕ
  product_id : ℕ
  quantity : ℤ
  refund_amount : ℚ
  reason : String
deriving DecidableEq, Repr

/-- A `returns` header row together with its item rows. -/
structure ReturnRow where
  sale_id : ℕ
  processed_by : Option ℕ
  refund_method : String
  total_refunded : ℚ
  note : Option String
  items : List ReturnItemRow
deriving DecidableEq, Repr

/-- The shared relational store, passed explicitly.  The committed sale of
interest is kept as `sales : List (SaleRow × List SaleItemRow)` with the new
header and items appended on commit. -/
structure DBState where
  products : List Product
  batches : List ProductBatch
  seqs : SeqTable
  sales : List (ℕ × SaleRow)
  sale_items : List (ℕ × SaleItemRow)
  payments : List (ℕ × SalePaymentRow)
  applied_promos : List (ℕ × AppliedPromotionRow)
  promotions : List Promotion
  customers : List Customer
  gift_cards : List GiftCard
  inventory_logs : List InventoryLogRow
  cash_sessions : List CashSessionRow
  returns : List ReturnRow
  next_sale_id : ℕ
  next_batch_id : ℕ
deriving DecidableEq, Repr

/-- First `products` row with a given id (`db.session.query(Product)…first()`). -/
def findProduct (db : DBState) (pid : ℕ) : Option Product :=
  db.products.find? (fun p => p.id = pid)

/-- Replace a product row by id. -/
def updateProduct (db : DBState) (p : Product) : DBState :=
  { db with products := db.products.map (fun q => if q.id = p.id then p else q) }

/-! ## FIFO batch consumption (`app/billing/routes.py`, `complete`) -/

/-- The FIFO ordering used by the batch query: non-null expiry ascending
first, null-expiry batches last (`db.case(expiry IS NULL → 1, else 0),
expiry ASC`).  Ties (equal expiry, or two null expiries) keep table order
via a stable sort. -/
def batchLE (a b : ProductBatch) : Bool :=
  match a.expiry_date, b.expiry_date with
  | some x, some y => decide (x ≤ y)
  | some _, none => true
  | none, some _ => false
  | none, none => true

/-- The locked FIFO batch list for a product: positive-quantity batches of
the product, in FIFO order. -/
def fifo_batches (db : DBState) (pid : ℕ) : List ProductBatch :=
  (db.batches.filter (fun b => b.product_id = pid && decide (0 < b.quantity))).mergeSort batchLE

/-- Greedy consumption loop: take `min (batch.quantity, remaining)` from each
batch until `remaining ≤ 0`; returns the updated batches and the final
`remaining` (a positive final value is the logged shortfall). -/
def consumeBatches (remaining : ℤ) : List ProductBatch → List ProductBatch × ℤ
  | [] => ([], remaining)
  | b :: bs =>
    if remaining ≤ 0 then (b :: bs, remaining)
    else
      let take := min b.quantity remaining
      let (rest, rem) := consumeBatches (remaining - take) bs
      ({ b with quantity := b.quantity - take } :: rest, rem)

/-- Write consumed batch rows back into the table (rows are keyed by id). -/
def applyBatchUpdates (all upd : List ProductBatch) : List ProductBatch :=
  all.map (fun b => ((upd.find? (fun u => u.id = b.id)).getD b))

/-! ## Sale completion (`app/billing/routes.py`, `complete`) -/

/-- The exceptions a completion attempt can raise (every one is caught at
the route boundary, where the transaction is rolled back). -/
inductive SaleError where
  | productVanished (pid : ℕ)
  | insufficientStock (name : String) (available : ℤ) (requested : ℕ)
  | invalidPaymentAmounts
  | insufficientPayment (paid total : ℚ)
  | noCustomerAttached
  | insufficientPoints (has needs : ℤ)
  | giftCodeRequired
  | invalidGiftCard
  | insufficientGiftBalance (available : ℚ)
  | missingRow
  | integrityViolation
deriving DecidableEq, Repr

/-- Lock every referenced product row in ascending id order; a missing
product raises `ValueError(f'Product ID {pid} no longer exists.')`. -/
def lockProducts (db : DBState) (cart : Cart) : Except SaleError Unit :=
  go ((cart.map Prod.fst).mergeSort (fun a b => decide (a ≤ b)))
where
  /-- Lock loop over the sorted id list. -/
  go : List ℕ → Except SaleError Unit
    | [] => .ok ()
    | pid :: rest =>
      match findProduct db pid with
      | none => .error (.productVanished pid)
      | some _ => go rest

/-- Stock validation (all-or-nothing): the first cart line whose requested
quantity exceeds the locked aggregate stock raises `InsufficientStock`. -/
def validateStock (db : DBState) : Cart → Except SaleError Unit
  | [] => .ok ()
  | (pid, item) :: rest =>
    match findProduct db pid with
    | none => .error .missingRow
    | some p =>
      if p.stock < (item.quantity : ℤ) then
        .error (.insufficientStock p.name p.stock item.quantity)
      else validateStock db rest

/-- Result of deducting one cart line. -/
structure LineResult where
  db : DBState
  line_subtotal : ℚ
  line_gst : ℚ
  item : SaleItemRow
  shortfall : ℤ
deriving Repr

/-- Deduct one line: quantize the line subtotal and GST, subtract the full
quantity from aggregate stock, consume FIFO batches greedily (a positive
leftover is only logged), and append the audit log row. -/
def deduct_line (cashier : Option ℕ) (db : DBState) (pid : ℕ) (item : CartItem)
    (product : Product) : LineResult :=
  let qty := item.quantity
  let price := item.price
  let gst_rate : ℚ := (item.gst_percent : ℚ) / 100
  let line_subtotal := quantize2 (price * (qty : ℚ))
  let line_gst := quantize2 (line_subtotal * gst_rate)
  let old_stock := product.stock
  let product' := { product with stock := product.stock - (qty : ℤ) }
  let db₁ := updateProduct db product'
  let (consumed, remaining) := consumeBatches (qty : ℤ) (fifo_batches db₁ product.id)
  let db₂ := { db₁ with batches := applyBatchUpdates db₁.batches consumed }
  let log : InventoryLogRow :=
    ⟨product.id, old_stock, product'.stock, cashier, "Sale Deduction"⟩
  let db₃ := { db₂ with inventory_logs := db₂.inventory_logs ++ [log] }
  { db := db₃
    line_subtotal := line_subtotal
    line_gst := line_gst
    item := { id := 0, product_id := pid, quantity := qty, price_at_sale := price,
              gst_percent := item.gst_percent, subtotal := line_subtotal,
              weight_kg := item.weight_kg,
              unit_label := if item.is_weighed then some "kg" else none }
    shortfall := remaining }

/-- The deduction loop over the whole cart, accumulating the pre-discount
subtotal, the GST total and the `SaleItem` rows. -/
def deduct_lines (cashier : Option ℕ) (db : DBState) :
    Cart → Except SaleError (DBState × ℚ × ℚ × List SaleItemRow)
  | [] => .ok (db, 0, 0, [])
  | (pid, item) :: rest =>
    match findProduct db pid with
    | none => .error .missingRow
    | some p =>
      let r := deduct_line cashier db pid item p
      match deduct_lines cashier r.db rest with
      | .error e => .error e
      | .ok (db', st, gt, items) =>
        .ok (db', r.line_subtotal + st, r.line_gst + gt, r.item :: items)

/-- `get_active_promotions()`: active promotions whose date window contains
today (the use cap is not filtered here — the engine checks it). -/
def get_active_promotions (today : ℤ) (promos : List Promotion) : List Promotion :=
  promos.filter (fun p =>
    p.is_active &&
    (match p.start_date with | none => true | some s => decide (s ≤ today)) &&
    (match p.end_date with | none => true | some e => decide (today ≤ e)))

/-- `_get_promo_result(cart)`: evaluate the active promotions, returning
`none` when the engine raises (`ZeroDivisionError` from a `buy_x_get_y`
promotion whose cycle `buy_qty + free_qty` is zero while its product is in
the cart) — the caller swallows the exception. -/
def get_promo_result (today : ℤ) (cart : Cart) (promos : List Promotion) :
    Option PromoResult :=
  let act := get_active_promotions today promos
  if act.any (fun p =>
      is_valid_today today p &&
      match p.params with
      | .buy_x_get_y pid b f =>
        decide (b + f = 0) && (cart.find? (fun line => line.1 = pid)).isSome
      | _ => false) then
    none
  else some (evaluate_promotions today cart act)

/-- Python `int(·)` on a number: truncation toward zero. -/
def pyInt (q : ℚ) : ℤ := if 0 ≤ q then ⌊q⌋ else ⌈q⌉

/-- Replace a customer row by id. -/
def updateCustomer (db : DBState) (c : Customer) : DBState :=
  { db with customers := db.customers.map (fun d => if d.id = c.id then c else d) }

/-- The payment form fields (`none` models an unparseable amount string; an
absent field defaults to `some 0`). -/
structure PaymentForm where
  payment_cash : Option ℚ
  payment_card : Option ℚ
  payment_upi : Option ℚ
  payment_loyalty : Option ℚ
  payment_gift : Option ℚ
  gift_card_code : String
deriving DecidableEq, Repr

/-- The loyalty-redemption sub-block of the payment section: requires an
attached customer with `points ≥ int(p_loyalty)`, decrements the points and
records the loyalty tender row. -/
def loyalty_step (p_loyalty : ℚ) (customer_id : Option ℕ) (db : DBState) :
    Except SaleError (DBState × List SalePaymentRow) :=
  if 0 < p_loyalty then
    match customer_id with
    | none => .error .noCustomerAttached
    | some cid =>
      match db.customers.find? (fun c => c.id = cid) with
      | none => .error .missingRow
      | some c =>
        let points_needed := pyInt p_loyalty
        if c.points < points_needed then
          .error (.insufficientPoints c.points points_needed)
        else
          .ok (updateCustomer db { c with points := c.points - points_needed },
               [(⟨"loyalty", p_loyalty⟩ : SalePaymentRow)])
  else .ok (db, [])

/-- The gift-card sub-block of the payment section: requires a code naming a
locked active card with sufficient balance, decrements the balance and
records the gift-card tender row. -/
def gift_step (p_gift : ℚ) (gift_card_code : String) (db : DBState) :
    Except SaleError (DBState × List SalePaymentRow) :=
  if 0 < p_gift then
    if gift_card_code = "" then .error .giftCodeRequired
    else
      match db.gift_cards.find? (fun g => g.code = gift_card_code && g.is_active) with
      | none => .error .invalidGiftCard
      | some g =>
        if g.balance < p_gift then
          .error (.insufficientGiftBalance g.balance)
        else
          .ok ({ db with gift_cards := db.gift_cards.map (fun g' =>
                  if g'.code = gift_card_code && g'.is_active then
                    { g' with balance := g'.balance - p_gift }
                  else g') },
               [(⟨"gift_card", p_gift⟩ : SalePaymentRow)])
  else .ok (db, [])

/-- The payment-processing block of `complete`: parse the five tender legs,
check sufficiency against `grand_total - 0.05` (an all-zero tender defaults
to full cash), record card/upi legs exactly, redeem loyalty points and gift
card balance under their checks, and record the residual cash leg when
positive.  Returns the updated store and the `SalePayment` rows in insertion
order. -/
def process_payments (grand_total : ℚ) (customer_id : Option ℕ)
    (form : PaymentForm) (db : DBState) :
    Except SaleError (DBState × List SalePaymentRow) := do
  let legs ←
    match form.payment_cash, form.payment_card, form.payment_upi,
          form.payment_loyalty, form.payment_gift with
    | some a, some b, some c, some d, some e => Except.ok (a, b, c, d, e)
    | _, _, _, _, _ => Except.error SaleError.invalidPaymentAmounts
  let (p_cash, p_card, p_upi, p_loyalty, p_gift) := legs
  let total_tendered := p_cash + p_card + p_upi + p_loyalty + p_gift
  -- `p_cash = grand_total` is assigned in the all-zero branch but never read
  -- again: the cash row below is built from the residual.
  if total_tendered < grand_total - 1/20 ∧ total_tendered ≠ 0 then
    Except.error (SaleError.insufficientPayment total_tendered grand_total)
  let rows₁ : List SalePaymentRow :=
    (if 0 < p_card then [⟨"card", p_card⟩] else []) ++
    (if 0 < p_upi then [⟨"upi", p_upi⟩] else [])
  let (db, rows₂) ← loyalty_step p_loyalty customer_id db
  let (db, rows₃) ← gift_step p_gift form.gift_card_code db
  let cash_revenue := grand_total - p_card - p_upi - p_loyalty - p_gift
  let rows₄ : List SalePaymentRow :=
    if 0 < cash_revenue then [⟨"cash", cash_revenue⟩] else []
  Except.ok (db, rows₁ ++ rows₂ ++ rows₃ ++ rows₄)

/-- Loyalty accrual: one point per 100 currency units of `grand_total`
(`int(grand_total // 100)`), added when a customer is attached and the
computed points are positive. -/
def accrue_points (grand_total : ℚ) (customer_id : Option ℕ) (db : DBState) :
    Except SaleError DBState :=
  match customer_id with
  | none => .ok db
  | some cid =>
    if 0 < grand_total then
      let new_points := pyInt (grand_total / 100)
      if 0 < new_points then
        match db.customers.find? (fun c => c.id = cid) with
        | none => .error .missingRow
        | some c => .ok (updateCustomer db { c with points := c.points + new_points })
      else .ok db
    else .ok db

/-- Add `grand_total` to the cashier's first open cash session, if any. -/
def update_cash_session (cashier : Option ℕ) (grand_total : ℚ) (db : DBState) :
    DBState :=
  { db with cash_sessions := go db.cash_sessions }
where
  /-- Update the first matching open session. -/
  go : List CashSessionRow → List CashSessionRow
    | [] => []
    | s :: rest =>
      if cashier.isSome && s.cashier_id = cashier && !s.closed then
        { s with system_total := s.system_total + grand_total } :: rest
      else s :: go rest

/-- Increment `current_uses` of each promotion referenced by an applied
entry. -/
def bumpUses (promos : List Promotion) (entries : List AppliedEntry) :
    List Promotion :=
  entries.foldl
    (fun ps e =>
      match e.promo_id with
      | none => ps
      | some pid => ps.map (fun p =>
          if p.id = pid then { p with current_uses := p.current_uses + 1 } else p))
    promos

/-- The body of the `complete` route's `try` block, from product locking up
to (but excluding) `db.session.commit()`: one atomic unit of work over the
store, raising `SaleError` on any failure. -/
def completeTxn (today : ℤ) (year : ℕ) (cashier customer_id : Option ℕ)
    (cart : Cart) (form : PaymentForm) (db : DBState) :
    Except SaleError (DBState × String) := do
  lockProducts db cart
  validateStock db cart
  let (db, subtotal₀, gst_total, items) ← deduct_lines cashier db cart
  let promo_result := get_promo_result today cart db.promotions
  let (subtotal_total, promo_entries) :=
    match promo_result with
    | some r =>
      if 0 < r.total_discount then
        (subtotal₀ - min r.total_discount subtotal₀, r.applied)
      else (subtotal₀, ([] : List AppliedEntry))
    | none => (subtotal₀, [])
  let (invoice_number, seqs') := generate_invoice_number year db.seqs
  let db := { db with seqs := seqs' }
  let sale : SaleRow := ⟨invoice_number, cashier, customer_id, subtotal_total, gst_total⟩
  let grand_total := subtotal_total + gst_total
  let (db, pay_rows) ← process_payments grand_total customer_id form db
  let db ← accrue_points grand_total customer_id db
  let db := update_cash_session cashier grand_total db
  let sid := db.next_sale_id
  let db :=
    { db with
      sales := db.sales ++ [(sid, sale)]
      sale_items := db.sale_items ++ items.map (fun i => (sid, i))
      payments := db.payments ++ pay_rows.map (fun r => (sid, r))
      applied_promos := db.applied_promos ++ promo_entries.map (fun e =>
        (sid, ⟨e.promo_id, e.promo_name, e.discount_amount, e.description⟩))
      promotions := bumpUses db.promotions promo_entries
      next_sale_id := sid + 1 }
  Except.ok (db, invoice_number)

/-- What the route reports back. -/
inductive Outcome where
  | emptyCart
  | failed (e : SaleError)
  | completed (invoice_number : String)
deriving DecidableEq, Repr

/-- Session-backed request state: the cart, the attached customer and the
logged-in cashier. -/
structure SessionState where
  cart : Cart
  customer_id : Option ℕ
  user_id : Option ℕ
deriving DecidableEq, Repr

/-- The `complete` route: empty-cart guard, then the transaction; any raised
error triggers `db.session.rollback()` (the store reverts to its entry
state and the session cart is untouched), and `commit_ok = false` models an
`IntegrityError` thrown by the final COMMIT itself.  Only after a successful
commit are the cart cleared and the customer detached. -/
def complete (today : ℤ) (year : ℕ) (commit_ok : Bool) (st : SessionState)
    (form : PaymentForm) (db : DBState) : SessionState × DBState × Outcome :=
  if st.cart = [] then (st, db, .emptyCart)
  else
    match completeTxn today year st.user_id st.customer_id st.cart form db with
    | .error e => (st, db, .failed e)
    | .ok (db', inv) =>
      if commit_ok then
        ({ st with cart := [], customer_id := none }, db', .completed inv)
      else (st, db, .failed .integrityViolation)

/-! ## Returns processor (`app/billing/routes.py`, `returns_process`) -/

/-- The returns form: the refund method (`none` models a missing/empty,
i.e. falsy, field), an optional note, and per sale-item-id the parsed
`qty_<id>` value (`none` when the field is absent, empty or unparseable —
all of which the loop skips). -/
structure ReturnForm where
  refund_method : Option String
  note : Option String
  qty : ℕ → Option ℤ

/-- Total quantity already returned against one sale item, summed over all
prior `Return` headers of the sale (`returned_map`). -/
def returnedMap (db : DBState) (sid : ℕ) (item_id : ℕ) : ℤ :=
  ((((db.returns.filter (fun r => r.sale_id = sid)).flatMap (fun r => r.items)).filter
      (fun ri => ri.sale_item_id = item_id)).map (fun ri => ri.quantity)).sum

/-- Outcome of a return submission. -/
inductive RetOutcome where
  | failed
  | noop
  | done (total_refund : ℚ)
deriving DecidableEq, Repr

/-- Restock one returned line: increment the product's aggregate stock by
the returned quantity and append the audit log row. -/
def restock_line (user : Option ℕ) (invoice : String) (db : DBState) (p : Product)
    (qty : ℤ) : DBState :=
  let p' := { p with stock := p.stock + qty }
  let log : InventoryLogRow :=
    ⟨p.id, p'.stock - qty, p'.stock, user, "Return: Invoice " ++ invoice⟩
  { updateProduct db p' with
    inventory_logs := (updateProduct db p').inventory_logs ++ [log] }

/-- The per-item loop of `returns_process`: skip absent/unparseable/
non-positive quantities, abort on the first quantity exceeding the remaining
returnable quantity, and otherwise build the `ReturnItem` row (refund
`(subtotal_with_gst / original_quantity) × qty`), restock the product's
aggregate stock, and append the audit log row. -/
def process_return_items (user : Option ℕ) (invoice : String) (form : ReturnForm)
    (rmap : ℕ → ℤ) (db : DBState) :
    List SaleItemRow → Except Unit (DBState × List ReturnItemRow × ℚ)
  | [] => .ok (db, [], 0)
  | item :: rest =>
    match form.qty item.id with
    | none => process_return_items user invoice form rmap db rest
    | some qty_to_return =>
      if qty_to_return ≤ 0 then process_return_items user invoice form rmap db rest
      else
        let already_returned := rmap item.id
        let remaining := (item.quantity : ℤ) - already_returned
        if qty_to_return > remaining then .error ()
        else
          let unit_refund := item.subtotal_with_gst / (item.quantity : ℚ)
          let line_refund := unit_refund * (qty_to_return : ℚ)
          let ri : ReturnItemRow :=
            ⟨item.id, item.product_id, qty_to_return, line_refund, "Customer Return"⟩
          match findProduct db item.product_id with
          | none => .error ()
          | some p =>
            match process_return_items user invoice form rmap
                (restock_line user invoice db p qty_to_return) rest with
            | .error e => .error e
            | .ok (db'', ris, total) => .ok (db'', ri :: ris, line_refund + total)

/-- The POST branch of `returns_process(sale_id)`: validate the refund
method, run the per-item loop (any violation rolls the whole submission
back), reject a submission with no valid lines as a warning no-op, and
otherwise commit one `Return` header carrying the item rows. -/
def returns_process (user : Option ℕ) (sid : ℕ) (invoice : String)
    (form : ReturnForm) (db : DBState) : DBState × RetOutcome :=
  match form.refund_method with
  | none => (db, .failed)
  | some method =>
    let items := (db.sale_items.filter (fun it => it.1 = sid)).map Prod.snd
    match process_return_items user invoice form (returnedMap db sid) db items with
    | .error _ => (db, .failed)
    | .ok (db', ris, total_refund) =>
      if ris = [] then (db, .noop)
      else
        let header : ReturnRow := ⟨sid, user, method, total_refund, form.note, ris⟩
        ({ db' with returns := db'.returns ++ [header] }, .done total_refund)

/-! ## Stock receiving (`app/inventory/routes.py`, `add_batch`) -/

/-- The validated branch of `add_batch`: merge the received quantity into an
existing `(product_id, batch_number)` batch — also overwriting its cost
price and expiry date when the new values are truthy — or create a new
batch; then add the quantity to the product's aggregate stock and log. -/
def add_batch (user : Option ℕ) (product_id : ℕ) (batch_number : String)
    (qty : ℕ) (cost_price : Option ℚ) (expiry_date : Option ℤ)
    (db : DBState) : DBState :=
  match findProduct db product_id with
  | none => db
  | some product =>
    let old_stock := product.stock
    let db₁ :=
      match db.batches.find? (fun b =>
          b.product_id = product_id && b.batch_number = batch_number) with
      | some existing =>
        let e₁ := { existing with quantity := existing.quantity + (qty : ℤ) }
        let e₂ :=
          match cost_price with
          | some c => if c ≠ 0 then { e₁ with cost_price := some c } else e₁
          | none => e₁
        let e₃ :=
          match expiry_date with
          | some d => { e₂ with expiry_date := some d }
          | none => e₂
        { db with batches := db.batches.map (fun b => if b.id = existing.id then e₃ else b) }
      | none =>
        { db with
          batches := db.batches ++
            [⟨db.next_batch_id, product_id, batch_number, expiry_date, (qty : ℤ), cost_price⟩]
          next_batch_id := db.next_batch_id + 1 }
    let product' := { product with stock := product.stock + (qty : ℤ) }
    let db₂ := updateProduct db₁ product'
    let log : InventoryLogRow :=
      ⟨product.id, old_stock, product'.stock, user,
       "Stock received - Batch " ++ batch_number⟩
    { db₂ with inventory_logs := db₂.inventory_logs ++ [log] }

/-! ## Statement-level definitions -/

/-- The FIFO ordering stated by the spec: non-null expiries ascend, and a
null-expiry batch never comes before a non-null-expiry one. -/
def expiryOrder (a b : ProductBatch) : Prop :=
  match a.expiry_date, b.expiry_date with
  | some x, some y => x ≤ y
  | some _, none => True
  | none, some _ => False
  | none, none => True

/-- An empty store, the base for concrete examples. -/
def emptyDB : DBState :=
  { products := [], batches := [], seqs := [], sales := [], sale_items := [],
    payments := [], applied_promos := [], promotions := [], customers := [],
    gift_cards := [], inventory_logs := [], cash_sessions := [], returns := [],
    next_sale_id := 1, next_batch_id := 1 }

/-- Concrete store for the FIFO example: product 7 with batches
`B1(expiry=+10d, qty=10)` and `B2(expiry=+20d, qty=10)`. -/
def fifoExampleDB : DBState :=
  { emptyDB with
    products := [⟨7, "Rice", 100, 20, 0⟩]
    batches := [⟨1, 7, "B1", some 10, 10, none⟩, ⟨2, 7, "B2", some 20, 10, none⟩] }

/-- Concrete store for the payment-sum counterexample: one product, plenty
of stock, no promotions. -/
def c3db : DBState := { emptyDB with products := [⟨1, "A", 100, 5, 0⟩] }

/-- One-line cart: one unit of product 1 at 100, GST 0. -/
def c3cart : Cart := [(1, { price := 100, quantity := 1, gst_percent := 0 })]

/-- Tender form paying 120 by card against a grand total of 100. -/
def c3form : PaymentForm := ⟨some 0, some 120, some 0, some 0, some 0, ""⟩

/-- The parsed positive return quantity requested for a sale item, if any
(absent, unparseable and non-positive inputs are all skipped by the loop). -/
def requestedQty (form : ReturnForm) (it : SaleItemRow) : Option ℤ :=
  match form.qty it.id with
  | some q => if 0 < q then some q else none
  | none => none

/-- The valid lines of a return submission, in sale-item order. -/
def validReturnLines (form : ReturnForm) (items : List SaleItemRow) :
    List (SaleItemRow × ℤ) :=
  items.filterMap (fun it => (requestedQty form it).map (fun q => (it, q)))

/-- Refund for one returned line: per-unit price with GST times the
returned quantity. -/
def lineRefund (it : SaleItemRow) (q : ℤ) : ℚ :=
  (it.subtotal_with_gst / (it.quantity : ℚ)) * (q : ℚ)

/-- The `ReturnItem` rows a submission builds, in order. -/
def returnItemsSpec (form : ReturnForm) (items : List SaleItemRow) :
    List ReturnItemRow :=
  (validReturnLines form items).map (fun lq =>
    ⟨lq.1.id, lq.1.product_id, lq.2, lineRefund lq.1 lq.2, "Customer Return"⟩)

/-- The total quantity a submission restocks onto one product id. -/
def restockFor (form : ReturnForm) (pid : ℕ) (items : List SaleItemRow) : ℤ :=
  (((validReturnLines form items).filter (fun lq => lq.1.product_id = pid)).map
    (fun lq => lq.2)).sum

/-- Concrete store for the returns claims: a committed sale (id 1) of five
units of product 7, with no prior returns. -/
def retExampleDB : DBState :=
  { emptyDB with
    products := [⟨7, "Rice", 100, 20, 0⟩]
    sales := [(1, ⟨"2026-0001", some 1, none, 500, 0⟩)]
    sale_items := [(1, ⟨11, 7, 5, 100, 0, 500, none, none⟩)]
    next_sale_id := 2 }

/-- A submission form with a refund method but no quantities at all. -/
def emptyRetForm : ReturnForm :=
  { refund_method := some "cash", note := none, qty := fun _ => none }

/-- A submission returning 2 of the 5 units of sale item 11. -/
def retForm9 : ReturnForm :=
  { refund_method := some "cash", note := none,
    qty := fun i => if i = 11 then some 2 else none }

/-- The sale-item rows of one sale, in insertion order (`sale.items`). -/
def saleItemsOf (db : DBState) (sid : ℕ) : List SaleItemRow :=
  (db.sale_items.filter (fun r => r.1 = sid)).map Prod.snd

/-- The store after the witness return submission commits. -/
def retDoneDB : DBState :=
  { emptyDB with
    products := [⟨7, "Rice", 100, 22, 0⟩]
    sales := [(1, ⟨"2026-0001", some 1, none, 500, 0⟩)]
    sale_items := [(1, ⟨11, 7, 5, 100, 0, 500, none, none⟩)]
    inventory_logs := [⟨7, 20, 22, some 1, "Return: Invoice 2026-0001"⟩]
    returns := [⟨1, some 1, "cash", 200, none, [⟨11, 7, 2, 200, "Customer Return"⟩]⟩]
    next_sale_id := 2 }

/-- The discount value the engine attributes to one promotion on a cart:
the quantized individual discount when positive, else zero (a promotion
computing no positive discount is not applied). -/
def promoEntryValue (cart : Cart) (subtotal : ℚ) (p : Promotion) : ℚ :=
  if 0 < promoDiscount cart subtotal p then quantize2 (promoDiscount cart subtotal p)
  else 0

/-- `S`: the summed discounts of the valid stackable promotions. -/
def stackableSum (today : ℤ) (cart : Cart) (subtotal : ℚ)
    (promos : List Promotion) : ℚ :=
  ((promos.filter (fun p => is_valid_today today p && p.stackable)).map
    (promoEntryValue cart subtotal)).sum

/-- `B`: the largest single discount among the valid non-stackable
promotions (zero when there are none). -/
def bestNonStackable (today : ℤ) (cart : Cart) (subtotal : ℚ)
    (promos : List Promotion) : ℚ :=
  ((promos.filter (fun p => is_valid_today today p && !p.stackable)).map
    (promoEntryValue cart subtotal)).foldl max 0

/-- A one-line cart (one unit at 200) used to exercise the stacking rule. -/
def C1cart : Cart := [(1, { price := 200, quantity := 1, gst_percent := 0 })]

/-- A stackable 5%-off-bill promotion next to a non-stackable 20%-off-bill
promotion: the lone non-stackable discount (40) beats the stackable sum (10). -/
def C1promos : List Promotion :=
  [{ id := 1, name := "5% bill", params := .bill_percentage 5,
     start_date := none, end_date := none, is_active := true,
     max_uses := none, current_uses := 0, stackable := true },
   { id := 2, name := "20% bill", params := .bill_percentage 20,
     start_date := none, end_date := none, is_active := true,
     max_uses := none, current_uses := 0, stackable := false }]

/-! ## Helper lemmas: rounding -/

/-- Two-decimal grid: the image of the monetary quantization. -/
def Grid2 (x : ℚ) : Prop := ∃ k : ℤ, x = (k : ℚ) / 100

lemma quantize2_of_nonneg {x : ℚ} (hx : 0 ≤ x) :
    quantize2 x = (⌊x * 100 + 1/2⌋ : ℚ) / 100 := by
  simp [quantize2, hx]

lemma quantize2_nonneg {x : ℚ} (hx : 0 ≤ x) : 0 ≤ quantize2 x := by
  rw [quantize2_of_nonneg hx]
  have h : (0 : ℤ) ≤ ⌊x * 100 + 1/2⌋ := by
    rw [Int.le_floor]
    have : (0 : ℚ) ≤ x * 100 := by positivity
    push_cast
    linarith
  positivity

lemma quantize2_grid (x : ℚ) : Grid2 (quantize2 x) := by
  unfold quantize2
  split
  · exact ⟨_, rfl⟩
  · exact ⟨-⌊-x * 100 + 1/2⌋, by push_cast; ring⟩

lemma quantize2_intCast_div (k : ℤ) : quantize2 ((k : ℚ) / 100) = (k : ℚ) / 100 := by
  have harg : ∀ m : ℤ, ((m : ℚ) / 100) * 100 + 1/2 = (m : ℚ) + 1/2 := by
    intro m; field_simp
  have hfl : ∀ m : ℤ, ⌊(m : ℚ) + 1/2⌋ = m := by
    intro m
    rw [add_comm, Int.floor_add_int]
    norm_num
  unfold quantize2
  split
  · rw [harg, hfl]
  · have h1 : -((k : ℚ) / 100) * 100 + 1/2 = ((-k : ℤ) : ℚ) + 1/2 := by push_cast; ring
    rw [h1, hfl]
    push_cast
    ring

lemma Grid2.quantize2_self {x : ℚ} (h : Grid2 x) : quantize2 x = x := by
  obtain ⟨k, rfl⟩ := h
  exact quantize2_intCast_div k

lemma Grid2.add {x y : ℚ} (hx : Grid2 x) (hy : Grid2 y) : Grid2 (x + y) := by
  obtain ⟨k, rfl⟩ := hx
  obtain ⟨m, rfl⟩ := hy
  exact ⟨k + m, by push_cast; ring⟩

lemma Grid2.zero : Grid2 0 := ⟨0, by norm_num⟩

lemma Grid2.sub {x y : ℚ} (hx : Grid2 x) (hy : Grid2 y) : Grid2 (x - y) := by
  obtain ⟨k, rfl⟩ := hx
  obtain ⟨m, rfl⟩ := hy
  exact ⟨k - m, by push_cast; ring⟩

lemma Grid2.min {x y : ℚ} (hx : Grid2 x) (hy : Grid2 y) : Grid2 (min x y) := by
  rcases le_total x y with h | h
  · rwa [min_eq_left h]
  · rwa [min_eq_right h]

lemma Grid2.sum {l : List ℚ} (h : ∀ x ∈ l, Grid2 x) : Grid2 l.sum := by
  induction l with
  | nil => simpa using Grid2.zero
  | cons a l ih =>
    simp only [List.sum_cons]
    exact (h a (by simp)).add (ih fun x hx => h x (by simp [hx]))

/-! ## Helper lemmas: invoice sequence -/

lemma lookupSeq_writeSeq (t : SeqTable) (y n : ℕ) :
    lookupSeq (writeSeq t y n) y = some n := by
  induction t with
  | nil => simp [lookupSeq, writeSeq]
  | cons r rs ih =>
    obtain ⟨a, b⟩ := r
    by_cases hy : a = y
    · subst hy
      simp [lookupSeq, writeSeq, List.find?]
    · by_cases hf : ((rs.find? (fun q => q.1 = y)).isSome : Prop)
      · simpa [lookupSeq, writeSeq, List.find?, hy, hf] using ih
      · simpa [lookupSeq, writeSeq, List.find?, hy, hf] using ih

lemma generate_invoice_number_eq (year : ℕ) (t : SeqTable) :
    generate_invoice_number year t =
      (toString year ++ "-" ++ padSeq ((lookupSeq t year).getD 0 + 1),
       writeSeq t year ((lookupSeq t year).getD 0 + 1)) := by
  unfold generate_invoice_number
  cases h : lookupSeq t year <;> simp [h]

lemma allocRun_strings (year : ℕ) : ∀ (k : ℕ) (t : SeqTable),
    (allocRun year t k).1 =
      (List.range' ((lookupSeq t year).getD 0 + 1) k).map
        (fun n => toString year ++ "-" ++ padSeq n) ∧
    (lookupSeq (allocRun year t k).2 year).getD 0 =
      (lookupSeq t year).getD 0 + k := by
  intro k
  induction k with
  | zero => simp [allocRun]
  | succ k ih =>
    intro t
    have hgen := generate_invoice_number_eq year t
    have hw := lookupSeq_writeSeq t year ((lookupSeq t year).getD 0 + 1)
    have hrec := ih (writeSeq t year ((lookupSeq t year).getD 0 + 1))
    constructor
    · simp only [allocRun, hgen, List.range'_succ, List.map_cons]
      refine congrArg _ ?_
      rw [hrec.1, hw]
      simp
    · simp only [allocRun, hgen]
      rw [hrec.2, hw]
      simp
      omega

/-- C8: each allocator call within a year's transaction bumps that year's
`last_seq` by exactly one (an absent row behaves as `last_seq = 0`, so the
first invoice of a year is number 1), the returned string is
`"YYYY-NNNN"` zero-padded to at least four digits and growing beyond, and
`k` successive committed calls return the gapless strictly increasing
sequence `s₀+1, …, s₀+k`. -/
theorem C8_invoice_sequence (year : ℕ) (t : SeqTable) (k : ℕ) :
    lookupSeq (generate_invoice_number year t).2 year
      = some ((lookupSeq t year).getD 0 + 1)
  ∧ (generate_invoice_number year t).1
      = toString year ++ "-" ++ padSeq ((lookupSeq t year).getD 0 + 1)
  ∧ (lookupSeq t year = none → (generate_invoice_number year t).1
      = toString year ++ "-" ++ padSeq 1)
  ∧ (allocRun year t k).1
      = (List.range' ((lookupSeq t year).getD 0 + 1) k).map
          (fun n => toString year ++ "-" ++ padSeq n)
  ∧ padSeq 1 = "0001" ∧ padSeq 42 = "0042" ∧ padSeq 9999 = "9999"
  ∧ padSeq 10000 = "10000" := by
  refine ⟨?_, ?_, ?_, (allocRun_strings year k t).1, by rfl, by rfl, by rfl, by rfl⟩
  · rw [generate_invoice_number_eq]
    exact lookupSeq_writeSeq t year _
  · rw [generate_invoice_number_eq]
  · intro h
    rw [generate_invoice_number_eq, h]
    rfl

/-- Witness for C8 at concrete inputs: a fresh year 2026 table allocates
`2026-0001`, then `2026-0002`, and the stored sequence is 1 after one call. -/
theorem C8_witness :
    (generate_invoice_number 2026 []).1 = "2026-0001"
  ∧ lookupSeq (generate_invoice_number 2026 []).2 2026 = some 1
  ∧ (allocRun 2026 [] 2).1 = ["2026-0001", "2026-0002"] := by
  have h := C8_invoice_sequence 2026 [] 2
  refine ⟨?_, ?_, ?_⟩
  · have := h.2.2.1 (by rfl)
    simpa using this
  · simpa using h.1
  · rw [h.2.2.2.1]
    rfl

/-! ## Helper lemmas: FIFO batch consumption -/

lemma batchLE_trans (a b c : ProductBatch) (hab : batchLE a b = true)
    (hbc : batchLE b c = true) : batchLE a c = true := by
  unfold batchLE at *
  cases ha : a.expiry_date <;> cases hb : b.expiry_date <;> cases hc : c.expiry_date <;>
    simp_all
  omega

lemma batchLE_total (a b : ProductBatch) : (batchLE a b || batchLE b a) = true := by
  unfold batchLE
  cases a.expiry_date <;> cases b.expiry_date <;> simp
  omega

lemma batchLE_iff_expiryOrder (a b : ProductBatch) :
    batchLE a b = true ↔ expiryOrder a b := by
  unfold batchLE expiryOrder
  cases a.expiry_date <;> cases b.expiry_date <;> simp

lemma fifo_batches_perm (db : DBState) (pid : ℕ) :
    (fifo_batches db pid).Perm
      (db.batches.filter (fun b => b.product_id = pid && decide (0 < b.quantity))) :=
  List.mergeSort_perm _ _

lemma fifo_batches_sorted (db : DBState) (pid : ℕ) :
    (fifo_batches db pid).Pairwise expiryOrder := by
  have h := @List.sorted_mergeSort _ batchLE
    (fun a b c => batchLE_trans a b c) batchLE_total
    (db.batches.filter (fun b => b.product_id = pid && decide (0 < b.quantity)))
  exact h.imp (fun hab => (batchLE_iff_expiryOrder _ _).mp hab)

lemma fifo_batches_pos (db : DBState) (pid : ℕ) :
    ∀ b ∈ fifo_batches db pid, 0 < b.quantity := by
  intro b hb
  have hmem := (fifo_batches_perm db pid).mem_iff.mp hb
  have := List.of_mem_filter hmem
  simp at this
  exact this.2

lemma consumeBatches_cons (rem : ℤ) (b : ProductBatch) (bs : List ProductBatch) :
    consumeBatches rem (b :: bs) =
      if rem ≤ 0 then (b :: bs, rem)
      else
        ({ b with quantity := b.quantity - min b.quantity rem } ::
           (consumeBatches (rem - min b.quantity rem) bs).1,
         (consumeBatches (rem - min b.quantity rem) bs).2) := by
  simp only [consumeBatches]

lemma consumeBatches_nonneg :
    ∀ (bs : List ProductBatch) (rem : ℤ), 0 ≤ rem →
    (∀ b ∈ bs, 0 ≤ b.quantity) →
    ∀ b' ∈ (consumeBatches rem bs).1, 0 ≤ b'.quantity := by
  intro bs
  induction bs with
  | nil => intro rem _ _ b' hb'; simp [consumeBatches] at hb'
  | cons b bs ih =>
    intro rem hrem hq b' hb'
    rw [consumeBatches_cons] at hb'
    split at hb'
    · exact hq b' hb'
    · rename_i hpos
      rcases List.mem_cons.mp hb' with hb' | hb'
      · subst hb'
        simp
      · refine ih (rem - min b.quantity rem) ?_ (fun x hx => hq x (by simp [hx])) b' hb'
        have := hq b (by simp)
        omega

lemma consumeBatches_rem :
    ∀ (bs : List ProductBatch) (rem : ℤ), 0 ≤ rem →
    (∀ b ∈ bs, 0 ≤ b.quantity) →
    (consumeBatches rem bs).2 = max 0 (rem - (bs.map (fun b => b.quantity)).sum) := by
  intro bs
  induction bs with
  | nil => intro rem hrem _; simp [consumeBatches]; omega
  | cons b bs ih =>
    intro rem hrem hq
    rw [consumeBatches_cons]
    have hb := hq b (by simp)
    have hsum : 0 ≤ ((bs.map (fun b => b.quantity)).sum) := by
      apply List.sum_nonneg
      intro x hx
      obtain ⟨y, hy, rfl⟩ := List.mem_map.mp hx
      exact hq y (by simp [hy])
    split
    · simp only [List.map_cons, List.sum_cons]
      omega
    · rename_i hpos
      rw [ih (rem - min b.quantity rem) (by omega) (fun x hx => hq x (by simp [hx]))]
      simp only [List.map_cons, List.sum_cons]
      omega

lemma consumeBatches_sum :
    ∀ (bs : List ProductBatch) (rem : ℤ),
    ((consumeBatches rem bs).1.map (fun b => b.quantity)).sum
      = (bs.map (fun b => b.quantity)).sum - (rem - (consumeBatches rem bs).2) := by
  intro bs
  induction bs with
  | nil => intro rem; simp [consumeBatches]
  | cons b bs ih =>
    intro rem
    rw [consumeBatches_cons]
    split
    · simp
    · simp only [List.map_cons, List.sum_cons]
      rw [ih (rem - min b.quantity rem)]
      ring

lemma fifo_batches_fifoExampleDB :
    fifo_batches fifoExampleDB 7 =
      [⟨1, 7, "B1", some 10, 10, none⟩, ⟨2, 7, "B2", some 20, 10, none⟩] := by
  unfold fifo_batches
  have hf : fifoExampleDB.batches.filter (fun b => b.product_id = 7 && decide (0 < b.quantity))
      = [⟨1, 7, "B1", some 10, 10, none⟩, ⟨2, 7, "B2", some 20, 10, none⟩] := by decide
  rw [hf]
  exact List.mergeSort_of_sorted (by decide)

/-- C7: FIFO consumption for a sale line operates on exactly the product's
positive-quantity batches ordered by ascending non-null expiry with
null-expiry batches last; each batch is decremented greedily by
`min(quantity, remaining)` so no batch goes negative, the total taken is
`min(requested, available in batches)`, and on batches B1(+10d, qty 10),
B2(+20d, qty 10) a sale of 15 units leaves B1 = 0 and B2 = 5. -/
theorem C7_fifo_consumption (db : DBState) (pid : ℕ) (qty : ℤ) (hq : 0 ≤ qty) :
    (fifo_batches db pid).Perm
      (db.batches.filter (fun b => b.product_id = pid && decide (0 < b.quantity)))
  ∧ (fifo_batches db pid).Pairwise expiryOrder
  ∧ (∀ b' ∈ (consumeBatches qty (fifo_batches db pid)).1, 0 ≤ b'.quantity)
  ∧ ((fifo_batches db pid).map (fun b => b.quantity)).sum
      - ((consumeBatches qty (fifo_batches db pid)).1.map (fun b => b.quantity)).sum
      = min qty (((fifo_batches db pid).map (fun b => b.quantity)).sum)
  ∧ consumeBatches 15 (fifo_batches fifoExampleDB 7) =
      ([⟨1, 7, "B1", some 10, 0, none⟩, ⟨2, 7, "B2", some 20, 5, none⟩], 0) := by
  have hpos : ∀ b ∈ fifo_batches db pid, 0 ≤ b.quantity :=
    fun b hb => le_of_lt (fifo_batches_pos db pid b hb)
  have hsum : 0 ≤ ((fifo_batches db pid).map (fun b => b.quantity)).sum := by
    apply List.sum_nonneg
    intro x hx
    obtain ⟨y, hy, rfl⟩ := List.mem_map.mp hx
    exact hpos y hy
  refine ⟨fifo_batches_perm db pid, fifo_batches_sorted db pid,
    consumeBatches_nonneg _ qty hq hpos, ?_, by rw [fifo_batches_fifoExampleDB]; decide⟩
  rw [consumeBatches_sum, consumeBatches_rem _ qty hq hpos]
  omega

/-- Witness for C7 at a concrete input (the spec's own FIFO example). -/
theorem C7_witness :
    consumeBatches 15 (fifo_batches fifoExampleDB 7) =
      ([⟨1, 7, "B1", some 10, 0, none⟩, ⟨2, 7, "B2", some 20, 5, none⟩], 0)
  ∧ (fifo_batches fifoExampleDB 7).Pairwise expiryOrder :=
  ⟨(C7_fifo_consumption fifoExampleDB 7 15 (by norm_num)).2.2.2.2,
   (C7_fifo_consumption fifoExampleDB 7 15 (by norm_num)).2.1⟩

/-- C10: receiving stock into an existing `(product_id, batch_number)` batch
adds the received quantity and additionally overwrites the batch's cost
price and expiry date whenever truthy new values are supplied; no new batch
row is created, and the overwrite can change the batch's position in later
FIFO ordering (concretely: updating B1's expiry from +10d to +30d moves it
behind B2). -/
theorem C10_add_batch_merge (user : Option ℕ) (pid : ℕ) (bn : String) (qty : ℕ)
    (cost : Option ℚ) (exp : Option ℤ) (db : DBState) (product : Product)
    (existing : ProductBatch)
    (hp : findProduct db pid = some product)
    (hfind : db.batches.find? (fun b => b.product_id = pid && b.batch_number = bn)
      = some existing) :
    (add_batch user pid bn qty cost exp db).batches =
      db.batches.map (fun b =>
        if b.id = existing.id then
          { existing with
            quantity := existing.quantity + (qty : ℤ)
            cost_price :=
              match cost with
              | some c => if c ≠ 0 then some c else existing.cost_price
              | none => existing.cost_price
            expiry_date :=
              match exp with
              | some d => some d
              | none => existing.expiry_date }
        else b)
  ∧ (add_batch user pid bn qty cost exp db).batches.length = db.batches.length
  ∧ fifo_batches fifoExampleDB 7
      = [⟨1, 7, "B1", some 10, 10, none⟩, ⟨2, 7, "B2", some 20, 10, none⟩]
  ∧ fifo_batches (add_batch none 7 "B1" 3 none (some 30) fifoExampleDB) 7
      = [⟨2, 7, "B2", some 20, 10, none⟩, ⟨1, 7, "B1", some 30, 13, none⟩] := by
  have hbatches : (add_batch user pid bn qty cost exp db).batches =
      db.batches.map (fun b =>
        if b.id = existing.id then
          { existing with
            quantity := existing.quantity + (qty : ℤ)
            cost_price :=
              match cost with
              | some c => if c ≠ 0 then some c else existing.cost_price
              | none => existing.cost_price
            expiry_date :=
              match exp with
              | some d => some d
              | none => existing.expiry_date }
        else b) := by
    unfold add_batch
    rw [hp, hfind]
    simp only [updateProduct]
    rcases cost with _ | c
    · rcases exp with _ | d
      · rfl
      · rfl
    · rcases exp with _ | d <;> by_cases hc : c = 0 <;> simp [hc]
  refine ⟨hbatches, by rw [hbatches]; simp, fifo_batches_fifoExampleDB, ?_⟩
  have : (add_batch none 7 "B1" 3 none (some 30) fifoExampleDB).batches =
      [⟨1, 7, "B1", some 30, 13, none⟩, ⟨2, 7, "B2", some 20, 10, none⟩] := by
    unfold add_batch findProduct fifoExampleDB emptyDB
    simp [updateProduct]
  unfold fifo_batches
  rw [this]
  have hf : ([⟨1, 7, "B1", some 30, 13, none⟩,
              (⟨2, 7, "B2", some 20, 10, none⟩ : ProductBatch)]).filter
      (fun b => b.product_id = 7 && decide (0 < b.quantity))
      = [⟨1, 7, "B1", some 30, 13, none⟩, ⟨2, 7, "B2", some 20, 10, none⟩] := by decide
  rw [hf]
  simp [List.mergeSort, batchLE]

/-- Witness for C10 at a concrete input: merging 3 units into batch B1 of
the FIFO example store with a new expiry of +30d. -/
theorem C10_witness :
    (add_batch none 7 "B1" 3 none (some 30) fifoExampleDB).batches =
      [⟨1, 7, "B1", some 30, 13, none⟩, ⟨2, 7, "B2", some 20, 10, none⟩] := by
  have h := C10_add_batch_merge none 7 "B1" 3 none (some 30) fifoExampleDB
    ⟨7, "Rice", 100, 20, 0⟩ ⟨1, 7, "B1", some 10, 10, none⟩ (by rfl) (by rfl)
  rw [h.1]
  rfl

/-! ## Helper lemmas: per-line rounding -/

lemma cart_subtotal_eq_sum (cart : Cart) :
    cart_subtotal cart =
      (cart.map (fun l => quantize2 (l.2.price * (l.2.quantity : ℚ)))).sum := by
  suffices h : ∀ (c : Cart) (a : ℚ),
      c.foldl (fun total line => total + quantize2 (line.2.price * line.2.quantity)) a
        = a + (c.map (fun l => quantize2 (l.2.price * (l.2.quantity : ℚ)))).sum by
    simpa using h cart 0
  intro c
  induction c with
  | nil => simp
  | cons l ls ih =>
    intro a
    simp [ih]
    ring

lemma handle_percentage_item_eq_sum (ids : List ℕ) (pct : ℚ) (cart : Cart) :
    handle_percentage_item ids pct cart =
      ((cart.filter (fun l => l.1 ∈ ids)).map
        (fun l => quantize2 (quantize2 (l.2.price * (l.2.quantity : ℚ)) * pct / 100))).sum := by
  suffices h : ∀ (c : Cart) (a : ℚ),
      c.foldl
        (fun disc line =>
          if line.1 ∈ ids then
            disc + quantize2 (quantize2 (line.2.price * line.2.quantity) * pct / 100)
          else disc) a
        = a + ((c.filter (fun l => l.1 ∈ ids)).map
            (fun l => quantize2 (quantize2 (l.2.price * (l.2.quantity : ℚ)) * pct / 100))).sum by
    simpa [handle_percentage_item] using h cart 0
  intro c
  induction c with
  | nil => simp
  | cons l ls ih =>
    intro a
    by_cases h : l.1 ∈ ids
    · simp [h, ih]
      ring
    · simp [h, ih]

lemma handle_fixed_item_eq_sum (ids : List ℕ) (amt : ℚ) (cart : Cart) :
    handle_fixed_item ids amt cart =
      ((cart.filter (fun l => l.1 ∈ ids)).map
        (fun l => min amt (quantize2 (l.2.price * (l.2.quantity : ℚ))))).sum := by
  suffices h : ∀ (c : Cart) (a : ℚ),
      c.foldl
        (fun disc line =>
          if line.1 ∈ ids then
            disc + min amt (quantize2 (line.2.price * line.2.quantity))
          else disc) a
        = a + ((c.filter (fun l => l.1 ∈ ids)).map
            (fun l => min amt (quantize2 (l.2.price * (l.2.quantity : ℚ))))).sum by
    simpa [handle_fixed_item] using h cart 0
  intro c
  induction c with
  | nil => simp
  | cons l ls ih =>
    intro a
    by_cases h : l.1 ∈ ids
    · simp [h, ih]
      ring
    · simp [h, ih]

/-- The per-line GST amount of a cart line, as the deduction loop computes
it. -/
def lineGst (l : ℕ × CartItem) : ℚ :=
  quantize2 (quantize2 (l.2.price * (l.2.quantity : ℚ)) * ((l.2.gst_percent : ℚ) / 100))

lemma deduct_lines_ok_totals (cashier : Option ℕ) :
    ∀ (cart : Cart) (db db' : DBState) (st gt : ℚ) (items : List SaleItemRow),
      deduct_lines cashier db cart = .ok (db', st, gt, items) →
      st = (cart.map (fun l => quantize2 (l.2.price * (l.2.quantity : ℚ)))).sum ∧
      gt = (cart.map lineGst).sum := by
  intro cart
  induction cart with
  | nil =>
    intro db db' st gt items h
    simp [deduct_lines] at h
    obtain ⟨-, h1, h2, -⟩ := h
    simp [← h1, ← h2]
  | cons l ls ih =>
    intro db db' st gt items h
    obtain ⟨pid, item⟩ := l
    cases hf : findProduct db pid with
    | none => simp [deduct_lines, hf] at h
    | some p =>
      cases hrec : deduct_lines cashier (deduct_line cashier db pid item p).db ls with
      | error e => simp [deduct_lines, hf, hrec] at h
      | ok r =>
        obtain ⟨db'', st', gt', items'⟩ := r
        simp only [deduct_lines, hf, hrec, Except.ok.injEq, Prod.mk.injEq] at h
        obtain ⟨-, hst, hgt, -⟩ := h
        have hih := ih _ _ _ _ _ hrec
        rw [← hst, ← hgt]
        constructor
        · simp [deduct_line, hih.1]
        · simp [deduct_line, lineGst, hih.2]

/-- C4: the monetary rounding function is half-up to two decimals (its value
is on the cent grid, within half a cent of the argument, and the boundary
tie rounds up), and the core applies it per line before aggregation: the
cart subtotal, the sale's accumulated subtotal and GST totals, and the
per-item promotion discounts are all sums of per-line-quantized values. -/
theorem C4_per_line_rounding (x : ℚ) (hx : 0 ≤ x) (cart : Cart) (ids : List ℕ)
    (pct amt : ℚ) (cashier : Option ℕ) (db db' : DBState) (st gt : ℚ)
    (items : List SaleItemRow) :
    Grid2 (quantize2 x)
  ∧ quantize2 x - 1/200 ≤ x ∧ x < quantize2 x + 1/200
  ∧ quantize2 (1/200) = 1/100
  ∧ cart_subtotal cart
      = (cart.map (fun l => quantize2 (l.2.price * (l.2.quantity : ℚ)))).sum
  ∧ handle_percentage_item ids pct cart
      = ((cart.filter (fun l => l.1 ∈ ids)).map
          (fun l => quantize2 (quantize2 (l.2.price * (l.2.quantity : ℚ)) * pct / 100))).sum
  ∧ handle_fixed_item ids amt cart
      = ((cart.filter (fun l => l.1 ∈ ids)).map
          (fun l => min amt (quantize2 (l.2.price * (l.2.quantity : ℚ))))).sum
  ∧ (deduct_lines cashier db cart = .ok (db', st, gt, items) →
      st = (cart.map (fun l => quantize2 (l.2.price * (l.2.quantity : ℚ)))).sum ∧
      gt = (cart.map lineGst).sum) := by
  refine ⟨quantize2_grid x, ?_, ?_, by norm_num [quantize2], cart_subtotal_eq_sum cart,
    handle_percentage_item_eq_sum ids pct cart, handle_fixed_item_eq_sum ids amt cart,
    fun h => deduct_lines_ok_totals cashier cart db db' st gt items h⟩
  · rw [quantize2_of_nonneg hx]
    have hfl := Int.floor_le (x * 100 + 1/2)
    linarith
  · rw [quantize2_of_nonneg hx]
    have hfl := Int.lt_floor_add_one (x * 100 + 1/2)
    linarith

/-- Witness for C4 at concrete inputs: a one-line cart of 3 units at 33.335
with 5% GST. -/
theorem C4_witness :
    (0 : ℚ) ≤ 100.005 ∧
    cart_subtotal [(1, { price := 33.335, quantity := 3, gst_percent := 5 })]
      = quantize2 (33.335 * 3) := by
  have h := C4_per_line_rounding 100.005 (by norm_num)
    [(1, { price := 33.335, quantity := 3, gst_percent := 5 })] [] 0 0 none
    emptyDB emptyDB 0 0 []
  refine ⟨by norm_num, ?_⟩
  rw [h.2.2.2.2.1]
  norm_num

/-! ## Helper lemmas: payment reconciliation -/

lemma loyalty_step_ok_rows {l : ℚ} {cust : Option ℕ} {db db' : DBState}
    {rows : List SalePaymentRow} (h : loyalty_step l cust db = .ok (db', rows)) :
    rows = if 0 < l then [⟨"loyalty", l⟩] else [] := by
  unfold loyalty_step at h
  split at h
  case isTrue hl =>
    rw [if_pos hl]
    cases cust with
    | none => simp at h
    | some cid =>
      cases hf : db.customers.find? (fun c => c.id = cid) with
      | none => simp [hf] at h
      | some c =>
        simp only [hf] at h
        split at h
        · simp at h
        · simp only [Except.ok.injEq, Prod.mk.injEq] at h
          exact h.2.symm
  case isFalse hl =>
    rw [if_neg hl]
    simp only [Except.ok.injEq, Prod.mk.injEq] at h
    exact h.2.symm

lemma loyalty_step_error {l : ℚ} {cust : Option ℕ} {db : DBState} {e : SaleError}
    (h : loyalty_step l cust db = .error e) :
    e = .noCustomerAttached ∨ e = .missingRow ∨ ∃ a b, e = .insufficientPoints a b := by
  unfold loyalty_step at h
  split at h
  · cases cust with
    | none => simp at h; simp [h]
    | some cid =>
      cases hf : db.customers.find? (fun c => c.id = cid) with
      | none => simp [hf] at h; simp [h]
      | some c =>
        simp only [hf] at h
        split at h
        · simp at h
          exact Or.inr (Or.inr ⟨_, _, h.symm⟩)
        · simp at h
  · simp at h

lemma gift_step_ok_rows {g : ℚ} {code : String} {db db' : DBState}
    {rows : List SalePaymentRow} (h : gift_step g code db = .ok (db', rows)) :
    rows = if 0 < g then [⟨"gift_card", g⟩] else [] := by
  unfold gift_step at h
  split at h
  case isTrue hg =>
    rw [if_pos hg]
    split at h
    · simp at h
    · cases hf : db.gift_cards.find? (fun c => c.code = code && c.is_active) with
      | none => simp [hf] at h
      | some gc =>
        simp only [hf] at h
        split at h
        · simp at h
        · simp only [Except.ok.injEq, Prod.mk.injEq] at h
          exact h.2.symm
  case isFalse hg =>
    rw [if_neg hg]
    simp only [Except.ok.injEq, Prod.mk.injEq] at h
    exact h.2.symm

lemma gift_step_error {g : ℚ} {code : String} {db : DBState} {e : SaleError}
    (h : gift_step g code db = .error e) :
    e = .giftCodeRequired ∨ e = .invalidGiftCard ∨ ∃ a, e = .insufficientGiftBalance a := by
  unfold gift_step at h
  split at h
  · split at h
    · simp at h; simp [h]
    · cases hf : db.gift_cards.find? (fun c => c.code = code && c.is_active) with
      | none => simp [hf] at h; simp [h]
      | some gc =>
        simp only [hf] at h
        split at h
        · simp at h
          exact Or.inr (Or.inr ⟨_, h.symm⟩)
        · simp at h
  · simp at h

lemma process_payments_insufficient (gt : ℚ) (cust : Option ℕ) (c ca u l g : ℚ)
    (code : String) (db : DBState)
    (hcond : c + ca + u + l + g < gt - 1/20 ∧ c + ca + u + l + g ≠ 0) :
    process_payments gt cust ⟨some c, some ca, some u, some l, some g, code⟩ db
      = .error (.insufficientPayment (c + ca + u + l + g) gt) := by
  unfold process_payments
  simp only [bind, Except.bind]
  rw [if_pos hcond]

lemma process_payments_ok_rows {gt : ℚ} {cust : Option ℕ} {c ca u l g : ℚ}
    {code : String} {db db' : DBState} {rows : List SalePaymentRow}
    (hok : process_payments gt cust ⟨some c, some ca, some u, some l, some g, code⟩ db
      = .ok (db', rows)) :
    rows = (if 0 < ca then [⟨"card", ca⟩] else [])
        ++ (if 0 < u then [⟨"upi", u⟩] else [])
        ++ (if 0 < l then [⟨"loyalty", l⟩] else [])
        ++ (if 0 < g then [⟨"gift_card", g⟩] else [])
        ++ (if 0 < gt - ca - u - l - g then [⟨"cash", gt - ca - u - l - g⟩] else []) := by
  by_cases hcond : c + ca + u + l + g < gt - 1/20 ∧ c + ca + u + l + g ≠ 0
  · rw [process_payments_insufficient gt cust c ca u l g code db hcond] at hok
    simp at hok
  · unfold process_payments at hok
    simp only [bind, Except.bind] at hok
    rw [if_neg hcond] at hok
    simp only [pure, Except.pure] at hok
    cases hl : loyalty_step l cust db with
    | error e => simp [hl] at hok
    | ok r =>
      obtain ⟨db₁, rows₂⟩ := r
      simp only [hl] at hok
      cases hg : gift_step g code db₁ with
      | error e => simp [hg] at hok
      | ok r' =>
        obtain ⟨db₂, rows₃⟩ := r'
        simp only [hg, Except.ok.injEq, Prod.mk.injEq] at hok
        rw [← hok.2, loyalty_step_ok_rows hl, gift_step_ok_rows hg]

lemma process_payments_no_insufficient (gt : ℚ) (cust : Option ℕ) (c ca u l g : ℚ)
    (code : String) (db : DBState)
    (hcond : ¬(c + ca + u + l + g < gt - 1/20 ∧ c + ca + u + l + g ≠ 0)) :
    ∀ paid tot,
      process_payments gt cust ⟨some c, some ca, some u, some l, some g, code⟩ db
        ≠ .error (.insufficientPayment paid tot) := by
  intro paid tot
  unfold process_payments
  simp only [bind, Except.bind]
  rw [if_neg hcond]
  simp only [pure, Except.pure]
  cases hl : loyalty_step l cust db with
  | error e =>
    rcases loyalty_step_error hl with h | h | ⟨a, b, h⟩ <;> simp [hl, h]
  | ok r =>
    obtain ⟨db₁, rows₂⟩ := r
    simp only [hl]
    cases hg : gift_step g code db₁ with
    | error e =>
      rcases gift_step_error hg with h | h | ⟨a, h⟩ <;> simp [hg, h]
    | ok r' =>
      obtain ⟨db₂, rows₃⟩ := r'
      simp [hg]

lemma sum5_ne_zero_iff {c ca u l g : ℚ} (hc : 0 ≤ c) (hca : 0 ≤ ca) (hu : 0 ≤ u)
    (hl : 0 ≤ l) (hg : 0 ≤ g) :
    c + ca + u + l + g ≠ 0 ↔ (c ≠ 0 ∨ ca ≠ 0 ∨ u ≠ 0 ∨ l ≠ 0 ∨ g ≠ 0) := by
  constructor
  · intro h
    by_contra hall
    push_neg at hall
    obtain ⟨h1, h2, h3, h4, h5⟩ := hall
    subst h1 h2 h3 h4 h5
    simp at h
  · intro h hsum
    rcases h with h | h | h | h | h <;> exact h (by linarith)

/-- C5: with non-negative tender legs, the completion payment block raises
the insufficient-payment error exactly when the tendered sum is strictly
below `grand_total - 0.05` and at least one leg is nonzero; an all-zero
tender succeeds with the entire grand total recorded as the cash row; and
the cash row recorded on success is always the residual
`grand_total - (card + upi + loyalty + gift)`, present only when that
residual is positive. -/
theorem C5_tender_reconciliation (gt : ℚ) (cust : Option ℕ) (c ca u l g : ℚ)
    (code : String) (db : DBState)
    (hc : 0 ≤ c) (hca : 0 ≤ ca) (hu : 0 ≤ u) (hl : 0 ≤ l) (hg : 0 ≤ g) :
    ((∃ paid tot,
        process_payments gt cust ⟨some c, some ca, some u, some l, some g, code⟩ db
          = .error (.insufficientPayment paid tot))
      ↔ (c + ca + u + l + g < gt - 1/20
         ∧ (c ≠ 0 ∨ ca ≠ 0 ∨ u ≠ 0 ∨ l ≠ 0 ∨ g ≠ 0)))
  ∧ (c = 0 → ca = 0 → u = 0 → l = 0 → g = 0 →
      process_payments gt cust ⟨some c, some ca, some u, some l, some g, code⟩ db
        = .ok (db, if 0 < gt then [⟨"cash", gt⟩] else []))
  ∧ (∀ db' rows,
      process_payments gt cust ⟨some c, some ca, some u, some l, some g, code⟩ db
        = .ok (db', rows) →
      rows.filter (fun r => r.payment_method = "cash")
        = if 0 < gt - (ca + u + l + g) then [⟨"cash", gt - (ca + u + l + g)⟩] else []) := by
  refine ⟨?_, ?_, ?_⟩
  · rw [← sum5_ne_zero_iff hc hca hu hl hg]
    constructor
    · rintro ⟨paid, tot, hpt⟩
      by_contra hcond
      exact process_payments_no_insufficient gt cust c ca u l g code db hcond paid tot hpt
    · intro hcond
      exact ⟨_, _, process_payments_insufficient gt cust c ca u l g code db hcond⟩
  · rintro rfl rfl rfl rfl rfl
    unfold process_payments loyalty_step gift_step
    simp [bind, Except.bind, pure, Except.pure]
  · intro db' rows hok
    rw [process_payments_ok_rows hok]
    have hres : gt - (ca + u + l + g) = gt - ca - u - l - g := by ring
    rw [hres]
    simp only [List.filter_append]
    split_ifs <;> simp [List.filter]

/-- Witness for C5 at concrete inputs: card 30 against a 100 total aborts
with the insufficient-payment error, and an all-zero tender against a 100
total records one cash row of 100. -/
theorem C5_witness :
    (∃ paid tot,
      process_payments 100 none ⟨some 0, some 30, some 0, some 0, some 0, ""⟩ emptyDB
        = .error (.insufficientPayment paid tot))
  ∧ process_payments 100 none ⟨some 0, some 0, some 0, some 0, some 0, ""⟩ emptyDB
      = .ok (emptyDB, [⟨"cash", 100⟩]) := by
  constructor
  · exact (C5_tender_reconciliation 100 none 0 30 0 0 0 "" emptyDB (by norm_num)
      (by norm_num) (by norm_num) (by norm_num) (by norm_num)).1.mpr
      ⟨by norm_num, by norm_num⟩
  · have h := (C5_tender_reconciliation 100 none 0 0 0 0 0 "" emptyDB (by norm_num)
      (by norm_num) (by norm_num) (by norm_num) (by norm_num)).2.1 rfl rfl rfl rfl rfl
    simpa using h

/-- C3, counterexample: the completion orchestrator commits a sale with
grand total 100 while accepting a 120 card tender; the recorded
`SalePayment` rows then sum to 120, not the sale's grand total — the claim
as stated is false for an accepted over-tender on a non-cash leg. -/
theorem C3_counterexample :
    ((completeTxn 0 2026 (some 1) none c3cart c3form c3db).toOption.map
      (fun r => ((r.1.payments.map (fun p => p.2.amount)).sum,
                 (r.1.sales.map (fun s => s.2.grand_total)).sum)))
      = some (120, 100)
  ∧ (120 : ℚ) ≠ 100 := by
  constructor
  · norm_num [completeTxn, c3db, c3cart, c3form, lockProducts, lockProducts.go,
      List.mergeSort, findProduct, emptyDB, validateStock, deduct_lines, deduct_line,
      fifo_batches, applyBatchUpdates, updateProduct, get_promo_result,
      get_active_promotions, evaluate_promotions, generate_invoice_number, lookupSeq,
      writeSeq, padSeq, process_payments, loyalty_step, gift_step, accrue_points,
      update_cash_session, update_cash_session.go, bumpUses, bind, Except.bind, pure,
      Except.pure, SaleRow.grand_total, cart_subtotal, quantize2]
    exact ⟨_, ⟨_, rfl⟩, by norm_num, by norm_num⟩
  · norm_num

/-- C3, amended: whenever the reconciliation step accepts a tender whose
non-cash legs (card + upi + loyalty + gift, each non-negative) do not exceed
the grand total, the recorded `SalePayment` rows sum exactly to the grand
total; an accepted non-cash over-tender instead records rows summing to the
non-cash total. -/
theorem C3_payments_sum_grand_total (gt : ℚ) (cust : Option ℕ) (c ca u l g : ℚ)
    (code : String) (db db' : DBState) (rows : List SalePaymentRow)
    (hca : 0 ≤ ca) (hu : 0 ≤ u) (hl : 0 ≤ l) (hg : 0 ≤ g)
    (hle : ca + u + l + g ≤ gt)
    (hok : process_payments gt cust ⟨some c, some ca, some u, some l, some g, code⟩ db
      = .ok (db', rows)) :
    (rows.map (fun r => r.amount)).sum = gt := by
  rw [process_payments_ok_rows hok]
  simp only [List.map_append, List.sum_append]
  split_ifs <;> simp <;> linarith

/-- Witness for C3's amended theorem: card 50 against a 100 total records
rows summing to 100. -/
theorem C3_witness :
    process_payments 100 none ⟨some 50, some 50, some 0, some 0, some 0, ""⟩ emptyDB
      = .ok (emptyDB, [⟨"card", 50⟩, ⟨"cash", 50⟩])
  ∧ (([⟨"card", 50⟩, ⟨"cash", 50⟩] : List SalePaymentRow).map (fun r => r.amount)).sum
      = 100 := by
  have hok : process_payments 100 none ⟨some 50, some 50, some 0, some 0, some 0, ""⟩
      emptyDB = .ok (emptyDB, [⟨"card", 50⟩, ⟨"cash", 50⟩]) := by
    norm_num [process_payments, loyalty_step, gift_step, bind, Except.bind, pure,
      Except.pure]
  exact ⟨hok, C3_payments_sum_grand_total 100 none 50 50 0 0 0 "" emptyDB emptyDB
    [⟨"card", 50⟩, ⟨"cash", 50⟩] (by norm_num) (by norm_num) (by norm_num)
    (by norm_num) (by norm_num) hok⟩

/-! ## Helper lemmas: stock validation and error classification -/

lemma lockProducts_go_ok (db : DBState) :
    ∀ xs : List ℕ, (∀ pid ∈ xs, (findProduct db pid).isSome) →
      lockProducts.go db xs = .ok () := by
  intro xs
  induction xs with
  | nil => intro _; rfl
  | cons x rest ih =>
    intro hall
    have hx := hall x (by simp)
    obtain ⟨p, hp⟩ := Option.isSome_iff_exists.mp hx
    simp only [lockProducts.go, hp]
    exact ih (fun y hy => hall y (by simp [hy]))

lemma lockProducts_ok (db : DBState) (cart : Cart)
    (hfound : ∀ l ∈ cart, (findProduct db l.1).isSome) :
    lockProducts db cart = .ok () := by
  unfold lockProducts
  apply lockProducts_go_ok
  intro pid hpid
  have hmem : pid ∈ cart.map Prod.fst :=
    (List.mergeSort_perm (cart.map Prod.fst) _).mem_iff.mp hpid
  obtain ⟨l, hl, rfl⟩ := List.mem_map.mp hmem
  exact hfound l hl

lemma validateStock_error_iff (db : DBState) :
    ∀ cart : Cart, (∀ l ∈ cart, (findProduct db l.1).isSome) →
    ((∃ n a r, validateStock db cart = .error (.insufficientStock n a r))
      ↔ ∃ l ∈ cart, ∃ p, findProduct db l.1 = some p ∧ p.stock < (l.2.quantity : ℤ)) := by
  intro cart
  induction cart with
  | nil => intro _; simp [validateStock]
  | cons l rest ih =>
    intro hfound
    obtain ⟨pid, item⟩ := l
    obtain ⟨p, hp⟩ := Option.isSome_iff_exists.mp (hfound (pid, item) (by simp))
    by_cases hs : p.stock < (item.quantity : ℤ)
    · constructor
      · intro _
        refine ⟨(pid, item), ?_, p, hp, hs⟩
        simp
      · intro _
        exact ⟨p.name, p.stock, item.quantity, by simp [validateStock, hp, hs]⟩
    · have hrec := ih (fun y hy => hfound y (by simp [hy]))
      have hred : validateStock db ((pid, item) :: rest) = validateStock db rest := by
        simp [validateStock, hp, hs]
      rw [hred, hrec]
      constructor
      · intro ⟨x, hx, hrest⟩
        exact ⟨x, by simp [hx], hrest⟩
      · rintro ⟨x, hx, q, hq, hsq⟩
        rcases List.mem_cons.mp hx with rfl | hx
        · rw [hp] at hq
          cases hq
          exact absurd hsq hs
        · exact ⟨x, hx, q, hq, hsq⟩

lemma validateStock_ok_or (db : DBState) :
    ∀ cart : Cart, validateStock db cart = .ok ()
      ∨ ∃ e, validateStock db cart = .error e := by
  intro cart
  induction cart with
  | nil => left; rfl
  | cons l rest ih =>
    obtain ⟨pid, item⟩ := l
    cases hp : findProduct db pid with
    | none => exact Or.inr ⟨.missingRow, by simp [validateStock, hp]⟩
    | some p =>
      by_cases hs : p.stock < (item.quantity : ℤ)
      · exact Or.inr ⟨.insufficientStock p.name p.stock item.quantity,
          by simp [validateStock, hp, hs]⟩
      · rcases ih with h | ⟨e, h⟩
        · left; simp [validateStock, hp, hs, h]
        · exact Or.inr ⟨e, by simp [validateStock, hp, hs, h]⟩

lemma deduct_lines_error_eq (cashier : Option ℕ) :
    ∀ (cart : Cart) (db : DBState) (e : SaleError),
      deduct_lines cashier db cart = .error e → e = .missingRow := by
  intro cart
  induction cart with
  | nil => intro db e h; simp [deduct_lines] at h
  | cons l rest ih =>
    intro db e h
    obtain ⟨pid, item⟩ := l
    cases hp : findProduct db pid with
    | none =>
      simp [deduct_lines, hp] at h
      exact h.symm
    | some p =>
      cases hrec : deduct_lines cashier (deduct_line cashier db pid item p).db rest with
      | error e' =>
        simp only [deduct_lines, hp, hrec] at h
        cases h
        exact ih _ _ hrec
      | ok r => simp [deduct_lines, hp, hrec] at h

lemma process_payments_error_kinds {gt : ℚ} {cust : Option ℕ} {form : PaymentForm}
    {db : DBState} {e : SaleError}
    (h : process_payments gt cust form db = .error e) :
    e = .invalidPaymentAmounts ∨ (∃ a b, e = .insufficientPayment a b)
    ∨ e = .noCustomerAttached ∨ e = .missingRow
    ∨ (∃ a b, e = .insufficientPoints a b) ∨ e = .giftCodeRequired
    ∨ e = .invalidGiftCard ∨ (∃ a, e = .insufficientGiftBalance a) := by
  obtain ⟨fc, fca, fu, fl, fg, code⟩ := form
  have hinv : ∀ hh : ∃ x : Unit, True, True := fun _ => trivial
  cases fc with
  | none =>
    have hv : process_payments gt cust ⟨none, fca, fu, fl, fg, code⟩ db
        = .error .invalidPaymentAmounts := by
      unfold process_payments
      simp [bind, Except.bind]
    rw [hv] at h
    simp at h
    simp [h.symm]
  | some c =>
  cases fca with
  | none =>
    have hv : process_payments gt cust ⟨some c, none, fu, fl, fg, code⟩ db
        = .error .invalidPaymentAmounts := by
      unfold process_payments
      simp [bind, Except.bind]
    rw [hv] at h
    simp at h
    simp [h.symm]
  | some ca =>
  cases fu with
  | none =>
    have hv : process_payments gt cust ⟨some c, some ca, none, fl, fg, code⟩ db
        = .error .invalidPaymentAmounts := by
      unfold process_payments
      simp [bind, Except.bind]
    rw [hv] at h
    simp at h
    simp [h.symm]
  | some u =>
  cases fl with
  | none =>
    have hv : process_payments gt cust ⟨some c, some ca, some u, none, fg, code⟩ db
        = .error .invalidPaymentAmounts := by
      unfold process_payments
      simp [bind, Except.bind]
    rw [hv] at h
    simp at h
    simp [h.symm]
  | some l =>
  cases fg with
  | none =>
    have hv : process_payments gt cust ⟨some c, some ca, some u, some l, none, code⟩ db
        = .error .invalidPaymentAmounts := by
      unfold process_payments
      simp [bind, Except.bind]
    rw [hv] at h
    simp at h
    simp [h.symm]
  | some g =>
  by_cases hcond : c + ca + u + l + g < gt - 1/20 ∧ c + ca + u + l + g ≠ 0
  · rw [process_payments_insufficient gt cust c ca u l g code db hcond] at h
    simp at h
    simp [h.symm]
  · unfold process_payments at h
    simp only [bind, Except.bind, pure, Except.pure] at h
    rw [if_neg hcond] at h
    cases hls : loyalty_step l cust db with
    | error e' =>
      simp only [hls] at h
      have he : e' = e := by simpa using h
      subst he
      rcases loyalty_step_error hls with h' | h' | ⟨a, b, h'⟩ <;> simp [h']
    | ok r =>
      obtain ⟨db₁, rows₂⟩ := r
      simp only [hls] at h
      cases hgs : gift_step g code db₁ with
      | error e' =>
        simp only [hgs] at h
        have he : e' = e := by simpa using h
        subst he
        rcases gift_step_error hgs with h' | h' | ⟨a, h'⟩ <;> simp [h']
      | ok r' =>
        obtain ⟨db₂, rows₃⟩ := r'
        simp [hgs] at h

lemma accrue_points_error_eq {gt : ℚ} {cust : Option ℕ} {db : DBState} {e : SaleError}
    (h : accrue_points gt cust db = .error e) : e = .missingRow := by
  unfold accrue_points at h
  cases cust with
  | none => simp at h
  | some cid =>
    dsimp only at h
    by_cases h1 : 0 < gt
    · rw [if_pos h1] at h
      by_cases h2 : 0 < pyInt (gt / 100)
      · rw [if_pos h2] at h
        cases hf : db.customers.find? (fun c => c.id = cid) with
        | none => simp [hf] at h; exact h.symm
        | some c => simp [hf] at h
      · rw [if_neg h2] at h
        simp at h
    · rw [if_neg h1] at h
      simp at h

lemma deduct_line_products (cashier : Option ℕ) (db : DBState) (pid : ℕ)
    (item : CartItem) (p : Product) :
    (deduct_line cashier db pid item p).db.products
      = db.products.map (fun q =>
          if q.id = p.id then { p with stock := p.stock - (item.quantity : ℤ) } else q) := rfl

lemma deduct_line_shortfall (cashier : Option ℕ) (db : DBState) (pid : ℕ)
    (item : CartItem) (p : Product) :
    (deduct_line cashier db pid item p).shortfall
      = (consumeBatches (item.quantity : ℤ) (fifo_batches db p.id)).2 := rfl

/-- C6: with every cart product present under lock, the completion
transaction raises the `InsufficientStock` error (with the product's name,
available and requested quantities) if and only if some cart line requests
more than that product's aggregate stock; the per-line deduction itself
always subtracts the full quantity from aggregate stock, and a batch
shortfall is merely the logged value `max 0 (qty - batch coverage)` rather
than a failure. -/
theorem C6_insufficient_stock (today : ℤ) (year : ℕ) (cashier cust : Option ℕ)
    (cart : Cart) (form : PaymentForm) (db : DBState)
    (hfound : ∀ l ∈ cart, (findProduct db l.1).isSome) :
    ((∃ n a r, completeTxn today year cashier cust cart form db
        = .error (.insufficientStock n a r))
      ↔ ∃ l ∈ cart, ∃ p, findProduct db l.1 = some p ∧ p.stock < (l.2.quantity : ℤ))
  ∧ (∀ (pid : ℕ) (item : CartItem) (p : Product) (db₀ : DBState),
      (deduct_line cashier db₀ pid item p).db.products
        = db₀.products.map (fun q =>
            if q.id = p.id then { p with stock := p.stock - (item.quantity : ℤ) } else q)
      ∧ (deduct_line cashier db₀ pid item p).shortfall
          = max 0 ((item.quantity : ℤ)
              - ((fifo_batches db₀ p.id).map (fun b => b.quantity)).sum)) := by
  have hlock := lockProducts_ok db cart hfound
  constructor
  · constructor
    · rintro ⟨n, a, r, h⟩
      unfold completeTxn at h
      simp only [bind, Except.bind, hlock] at h
      cases hval : validateStock db cart with
      | error e =>
        simp only [hval] at h
        have he : e = .insufficientStock n a r := by simpa using h
        subst he
        exact (validateStock_error_iff db cart hfound).mp ⟨n, a, r, hval⟩
      | ok u =>
        exfalso
        obtain ⟨⟩ := u
        simp only [hval] at h
        cases hd : deduct_lines cashier db cart with
        | error e =>
          simp only [hd] at h
          have := deduct_lines_error_eq cashier cart db e hd
          subst this
          simp at h
        | ok r₁ =>
          obtain ⟨db₁, st, gtot, items⟩ := r₁
          simp only [hd] at h
          split at h
          · rename_i e' heq
            rcases process_payments_error_kinds heq with
              h' | ⟨a', b', h'⟩ | h' | h' | ⟨a', b', h'⟩ | h' | h' | ⟨a', h'⟩ <;>
              subst h' <;> simp at h
          · rename_i v heq
            split at h
            · rename_i e' heq2
              have := accrue_points_error_eq heq2
              subst this
              simp at h
            · simp at h
    · rintro ⟨l, hl, p, hp, hs⟩
      obtain ⟨n, a, r, hval⟩ :=
        (validateStock_error_iff db cart hfound).mpr ⟨l, hl, p, hp, hs⟩
      refine ⟨n, a, r, ?_⟩
      unfold completeTxn
      simp only [bind, Except.bind, hlock, hval]
  · intro pid item p db₀
    refine ⟨deduct_line_products cashier db₀ pid item p, ?_⟩
    rw [deduct_line_shortfall]
    exact consumeBatches_rem _ _ (by positivity)
      (fun b hb => le_of_lt (fifo_batches_pos db₀ p.id b hb))

/-- Witness for C6 at a concrete input: a cart asking 3 units of a product
with stock 2 fails with `InsufficientStock("A", 2, 3)`; the same cart
against stock 5 does not raise `InsufficientStock` even though the product
has no batches at all (the shortfall 3 is only logged). -/
theorem C6_witness :
    (∃ n a r,
      completeTxn 0 2026 (some 1) none [(1, { price := 100, quantity := 3, gst_percent := 0 })]
        c3form { emptyDB with products := [⟨1, "A", 100, 2, 0⟩] }
        = .error (.insufficientStock n a r))
  ∧ ¬(∃ n a r,
      completeTxn 0 2026 (some 1) none [(1, { price := 100, quantity := 3, gst_percent := 0 })]
        c3form { emptyDB with products := [⟨1, "A", 100, 5, 0⟩] }
        = .error (.insufficientStock n a r)) := by
  constructor
  · refine (C6_insufficient_stock 0 2026 (some 1) none
      [(1, { price := 100, quantity := 3, gst_percent := 0 })] c3form
      { emptyDB with products := [⟨1, "A", 100, 2, 0⟩] } ?_).1.mpr ?_
    · rintro l hl
      simp only [List.mem_singleton] at hl
      subst hl
      simp [findProduct, emptyDB]
    · exact ⟨(1, { price := 100, quantity := 3, gst_percent := 0 }), by simp,
        ⟨1, "A", 100, 2, 0⟩, by simp [findProduct, emptyDB], by norm_num⟩
  · intro hbad
    have h := (C6_insufficient_stock 0 2026 (some 1) none
      [(1, { price := 100, quantity := 3, gst_percent := 0 })] c3form
      { emptyDB with products := [⟨1, "A", 100, 5, 0⟩] }
      (by rintro l hl
          simp only [List.mem_singleton] at hl
          subst hl
          simp [findProduct, emptyDB])).1.mp hbad
    obtain ⟨l, hl, p, hp, hs⟩ := h
    simp only [List.mem_singleton] at hl
    subst hl
    simp [findProduct, emptyDB] at hp
    rw [← hp] at hs
    norm_num at hs

/-- C2: if a completion attempt fails after the cart check — for any raised
error, including an `IntegrityError` at commit — the whole transaction is
rolled back: the store is exactly its entry state (so no stock or batch
mutation, no invoice-sequence advance and no Sale/SaleItem/SalePayment row
survives) and the session cart and attached customer are preserved; the
cart is cleared and the customer detached only after a successful commit,
which persists exactly the committed transaction's state. -/
theorem C2_rollback_on_failure (today : ℤ) (year : ℕ) (commit_ok : Bool)
    (st st' : SessionState) (form : PaymentForm) (db db' : DBState) :
    (∀ e : SaleError,
      complete today year commit_ok st form db = (st', db', .failed e) →
      db' = db ∧ st' = st
      ∧ db'.sales = db.sales ∧ db'.sale_items = db.sale_items
      ∧ db'.payments = db.payments ∧ db'.seqs = db.seqs
      ∧ db'.products = db.products ∧ db'.batches = db.batches
      ∧ st'.cart = st.cart)
  ∧ (∀ inv,
      complete today year commit_ok st form db = (st', db', .completed inv) →
      st'.cart = [] ∧ st'.customer_id = none ∧ commit_ok = true
      ∧ completeTxn today year st.user_id st.customer_id st.cart form db
          = .ok (db', inv)) := by
  constructor
  · intro e h
    unfold complete at h
    by_cases hc : st.cart = []
    · rw [if_pos hc] at h
      simp at h
    · rw [if_neg hc] at h
      cases htxn : completeTxn today year st.user_id st.customer_id st.cart form db with
      | error e' =>
        simp only [htxn, Prod.mk.injEq] at h
        obtain ⟨h1, h2, -⟩ := h
        subst h1 h2
        simp
      | ok r =>
        simp only [htxn] at h
        cases commit_ok with
        | true => simp at h
        | false =>
          simp only [Bool.false_eq_true, if_false, Prod.mk.injEq] at h
          obtain ⟨h1, h2, -⟩ := h
          subst h1 h2
          simp
  · intro inv h
    unfold complete at h
    by_cases hc : st.cart = []
    · rw [if_pos hc] at h
      simp at h
    · rw [if_neg hc] at h
      cases htxn : completeTxn today year st.user_id st.customer_id st.cart form db with
      | error e' => simp [htxn] at h
      | ok r =>
        obtain ⟨dbr, invr⟩ := r
        simp only [htxn] at h
        cases commit_ok with
        | true =>
          simp only [if_true, Prod.mk.injEq] at h
          obtain ⟨h1, h2, h3⟩ := h
          subst h1
          cases h3
          exact ⟨rfl, rfl, rfl, by rw [h2]⟩
        | false => simp at h

/-- Witness for C2 at a concrete input: a completion attempt on a cart of
3 units with only 2 in stock really fails (with `InsufficientStock`), and
the resulting store and session state are exactly the entry ones — the
rollback branch of the theorem applied to this concrete failed run. -/
theorem C2_witness :
    (complete 0 2026 true
        ⟨[(1, { price := 100, quantity := 3, gst_percent := 0 })], none, some 1⟩ c3form
        { emptyDB with products := [⟨1, "A", 100, 2, 0⟩] }).2.2
      = .failed (.insufficientStock "A" 2 3)
  ∧ (complete 0 2026 true
        ⟨[(1, { price := 100, quantity := 3, gst_percent := 0 })], none, some 1⟩ c3form
        { emptyDB with products := [⟨1, "A", 100, 2, 0⟩] }).2.1
      = { emptyDB with products := [⟨1, "A", 100, 2, 0⟩] }
  ∧ (complete 0 2026 true
        ⟨[(1, { price := 100, quantity := 3, gst_percent := 0 })], none, some 1⟩ c3form
        { emptyDB with products := [⟨1, "A", 100, 2, 0⟩] }).1
      = ⟨[(1, { price := 100, quantity := 3, gst_percent := 0 })], none, some 1⟩ := by
  have hrun : complete 0 2026 true
      ⟨[(1, { price := 100, quantity := 3, gst_percent := 0 })], none, some 1⟩ c3form
      { emptyDB with products := [⟨1, "A", 100, 2, 0⟩] }
      = (⟨[(1, { price := 100, quantity := 3, gst_percent := 0 })], none, some 1⟩,
         { emptyDB with products := [⟨1, "A", 100, 2, 0⟩] },
         .failed (.insufficientStock "A" 2 3)) := by
    norm_num [complete, completeTxn, lockProducts, lockProducts.go, List.mergeSort,
      validateStock, findProduct, emptyDB, bind, Except.bind]
  have h := (C2_rollback_on_failure 0 2026 true
    ⟨[(1, { price := 100, quantity := 3, gst_percent := 0 })], none, some 1⟩
    (complete 0 2026 true
      ⟨[(1, { price := 100, quantity := 3, gst_percent := 0 })], none, some 1⟩ c3form
      { emptyDB with products := [⟨1, "A", 100, 2, 0⟩] }).1 c3form
    { emptyDB with products := [⟨1, "A", 100, 2, 0⟩] }
    (complete 0 2026 true
      ⟨[(1, { price := 100, quantity := 3, gst_percent := 0 })], none, some 1⟩ c3form
      { emptyDB with products := [⟨1, "A", 100, 2, 0⟩] }).2.1).1
    (.insufficientStock "A" 2 3) (by rw [hrun])
  exact ⟨by rw [hrun], h.1, h.2.1⟩

/-! ## Helper lemmas: returns processing -/

lemma find_map_update (l : List Product) (p' : Product) (pid : ℕ) :
    (l.map (fun q => if q.id = p'.id then p' else q)).find? (fun p => p.id = pid)
      = (l.find? (fun p => p.id = pid)).map (fun x => if x.id = p'.id then p' else x) := by
  induction l with
  | nil => rfl
  | cons x xs ih =>
    simp only [List.map_cons, List.find?_cons]
    by_cases h1 : x.id = p'.id
    · rw [if_pos h1]
      by_cases h2 : x.id = pid
      · have hp : p'.id = pid := by rw [← h1, h2]
        simp [hp, h2, if_pos h1]
      · have hp : ¬p'.id = pid := by rw [← h1]; exact h2
        simp [hp, h2, ih]
    · rw [if_neg h1]
      by_cases h2 : x.id = pid
      · have hcond : ¬pid = p'.id := by rw [← h2]; exact h1
        simp [h2, hcond]
      · simp [h2, ih]

lemma findProduct_updateProduct (db : DBState) (p' : Product) (pid : ℕ) :
    findProduct (updateProduct db p') pid
      = (findProduct db pid).map (fun x => if x.id = p'.id then p' else x) :=
  find_map_update db.products p' pid

lemma validReturnLines_cons_none {form : ReturnForm} {it : SaleItemRow}
    (h : requestedQty form it = none) (rest : List SaleItemRow) :
    validReturnLines form (it :: rest) = validReturnLines form rest := by
  simp [validReturnLines, List.filterMap_cons, h]

lemma validReturnLines_cons_some {form : ReturnForm} {it : SaleItemRow} {q : ℤ}
    (h : requestedQty form it = some q) (rest : List SaleItemRow) :
    validReturnLines form (it :: rest) = (it, q) :: validReturnLines form rest := by
  simp [validReturnLines, List.filterMap_cons, h]

lemma process_return_items_violation (user : Option ℕ) (invoice : String)
    (form : ReturnForm) (rmap : ℕ → ℤ) :
    ∀ (items : List SaleItemRow) (db : DBState),
      (∃ it ∈ items, ∃ q, form.qty it.id = some q ∧ 0 < q
        ∧ (it.quantity : ℤ) - rmap it.id < q) →
      process_return_items user invoice form rmap db items = .error () := by
  intro items
  induction items with
  | nil => rintro db ⟨it, hit, -⟩; simp at hit
  | cons hd rest ih =>
    rintro db ⟨it, hit, q, hq, hqpos, hviol⟩
    rcases List.mem_cons.mp hit with rfl | hmem
    · simp only [process_return_items, hq]
      rw [if_neg (by omega)]
      rw [if_pos (by omega)]
    · cases hhd : form.qty hd.id with
      | none =>
        simp only [process_return_items, hhd]
        exact ih db ⟨it, hmem, q, hq, hqpos, hviol⟩
      | some qh =>
        simp only [process_return_items, hhd]
        by_cases hle : qh ≤ 0
        · rw [if_pos hle]
          exact ih db ⟨it, hmem, q, hq, hqpos, hviol⟩
        · rw [if_neg hle]
          by_cases hv : qh > (hd.quantity : ℤ) - rmap hd.id
          · rw [if_pos hv]
          · rw [if_neg hv]
            cases hf : findProduct db hd.product_id with
            | none => rfl
            | some p =>
              have hrec : ∀ dbx : DBState,
                  process_return_items user invoice form rmap dbx rest
                    = .error () :=
                fun dbx => ih dbx ⟨it, hmem, q, hq, hqpos, hviol⟩
              dsimp only
              rw [hrec]

lemma process_return_items_ok (user : Option ℕ) (invoice : String)
    (form : ReturnForm) (rmap : ℕ → ℤ) :
    ∀ (items : List SaleItemRow) (db db' : DBState) (ris : List ReturnItemRow)
      (total : ℚ),
      process_return_items user invoice form rmap db items = .ok (db', ris, total) →
      ris = returnItemsSpec form items
      ∧ total = ((validReturnLines form items).map (fun lq => lineRefund lq.1 lq.2)).sum
      ∧ (∀ pid, findProduct db' pid
          = (findProduct db pid).map (fun x =>
              { x with stock := x.stock + restockFor form pid items }))
      ∧ db'.returns = db.returns
      ∧ db'.sale_items = db.sale_items
      ∧ (∀ lq ∈ validReturnLines form items,
          lq.2 ≤ (lq.1.quantity : ℤ) - rmap lq.1.id) := by
  intro items
  induction items with
  | nil =>
    intro db db' ris total h
    simp only [process_return_items, Except.ok.injEq, Prod.mk.injEq] at h
    obtain ⟨h1, h2, h3⟩ := h
    subst h1 h2 h3
    refine ⟨rfl, rfl, ?_, rfl, rfl, by simp [validReturnLines]⟩
    intro pid
    simp only [restockFor, validReturnLines, List.filterMap_nil, List.filter_nil,
      List.map_nil, List.sum_nil, add_zero]
    cases hf : findProduct db pid with
    | none => rfl
    | some x => simp
  | cons hd rest ih =>
    intro db db' ris total h
    have hskip : process_return_items user invoice form rmap db (hd :: rest)
          = process_return_items user invoice form rmap db rest →
        requestedQty form hd = none →
        (ris = returnItemsSpec form (hd :: rest)
        ∧ total = ((validReturnLines form (hd :: rest)).map
            (fun lq => lineRefund lq.1 lq.2)).sum
        ∧ (∀ pid, findProduct db' pid
            = (findProduct db pid).map (fun x =>
                { x with stock := x.stock + restockFor form pid (hd :: rest) }))
        ∧ db'.returns = db.returns
        ∧ db'.sale_items = db.sale_items
        ∧ (∀ lq ∈ validReturnLines form (hd :: rest),
            lq.2 ≤ (lq.1.quantity : ℤ) - rmap lq.1.id)) := by
      intro heq hreq
      rw [heq] at h
      have hrec := ih db db' ris total h
      rw [returnItemsSpec, validReturnLines_cons_none hreq]
      refine ⟨hrec.1, hrec.2.1, ?_, hrec.2.2.2.1, hrec.2.2.2.2.1, hrec.2.2.2.2.2⟩
      intro pid
      have : restockFor form pid (hd :: rest) = restockFor form pid rest := by
        rw [restockFor, validReturnLines_cons_none hreq, restockFor]
      rw [this]
      exact hrec.2.2.1 pid
    cases hhd : form.qty hd.id with
    | none =>
      refine hskip ?_ ?_
      · simp only [process_return_items, hhd]
      · simp [requestedQty, hhd]
    | some qh =>
      by_cases hle : qh ≤ 0
      · refine hskip ?_ ?_
        · simp only [process_return_items, hhd]
          rw [if_pos hle]
        · simp [requestedQty, hhd]
          omega
      · have hreq : requestedQty form hd = some qh := by
          simp [requestedQty, hhd]
          omega
        simp only [process_return_items, hhd] at h
        rw [if_neg hle] at h
        by_cases hv : qh > (hd.quantity : ℤ) - rmap hd.id
        · rw [if_pos hv] at h
          simp at h
        · rw [if_neg hv] at h
          cases hf : findProduct db hd.product_id with
          | none => rw [hf] at h; simp at h
          | some p =>
            rw [hf] at h
            dsimp only at h
            cases hrec : process_return_items user invoice form rmap
                (restock_line user invoice db p qh) rest with
            | error e => rw [hrec] at h; simp at h
            | ok r =>
              obtain ⟨db'', ris', total'⟩ := r
              rw [hrec] at h
              simp only [Except.ok.injEq, Prod.mk.injEq] at h
              obtain ⟨hdb'', hris, htot⟩ := h
              subst hdb''
              have hihr := ih _ _ ris' total' hrec
              have hpid : p.id = hd.product_id := by
                have := List.find?_some hf
                simpa using this
              constructor
              · rw [← hris, returnItemsSpec, validReturnLines_cons_some hreq,
                  List.map_cons, hihr.1, returnItemsSpec]
                rfl
              constructor
              · rw [← htot, validReturnLines_cons_some hreq, List.map_cons,
                  List.sum_cons, hihr.2.1]
                rfl
              constructor
              · intro pid
                rw [hihr.2.2.1 pid]
                have hfp : findProduct (restock_line user invoice db p qh) pid
                    = (findProduct db pid).map (fun x =>
                        if x.id = p.id then { p with stock := p.stock + qh } else x) := by
                  rw [show findProduct (restock_line user invoice db p qh) pid
                      = findProduct (updateProduct db { p with stock := p.stock + qh }) pid
                      from rfl]
                  exact findProduct_updateProduct db _ pid
                rw [hfp]
                have hrsf : restockFor form pid (hd :: rest)
                    = (if hd.product_id = pid then qh else 0) + restockFor form pid rest := by
                  rw [restockFor, validReturnLines_cons_some hreq, restockFor]
                  by_cases hpp : hd.product_id = pid
                  · simp [List.filter_cons, hpp]
                  · simp [List.filter_cons, hpp]
                rw [hrsf]
                cases hfd : findProduct db pid with
                | none => rfl
                | some x =>
                  have hxid : x.id = pid := by
                    have := List.find?_some hfd
                    simpa using this
                  simp only [Option.map_some']
                  by_cases hpp : hd.product_id = pid
                  · have hxeq : x = p := by
                      rw [← hpp] at hfd
                      rw [hf] at hfd
                      exact (Option.some.inj hfd).symm
                    subst hxeq
                    rw [if_pos rfl]
                    simp [hpp]
                    ring
                  · have hxp : ¬x.id = p.id := by
                      rw [hxid, hpid]
                      intro hcon
                      exact hpp hcon.symm
                    rw [if_neg hxp]
                    simp [hpp]
              refine ⟨?_, ?_, ?_⟩
              · rw [hihr.2.2.2.1]
                rfl
              · rw [hihr.2.2.2.2.1]
                rfl
              · rw [validReturnLines_cons_some hreq]
                intro lq hlq
                rcases List.mem_cons.mp hlq with rfl | hmem
                · simpa using not_lt.mp hv
                · exact hihr.2.2.2.2.2 lq hmem

lemma validReturnLines_mem {form : ReturnForm} {items : List SaleItemRow}
    {lq : SaleItemRow × ℤ} (h : lq ∈ validReturnLines form items) :
    lq.1 ∈ items ∧ requestedQty form lq.1 = some lq.2 := by
  unfold validReturnLines at h
  obtain ⟨a, ha, hmap⟩ := List.mem_filterMap.mp h
  cases hq : requestedQty form a with
  | none => rw [hq] at hmap; simp at hmap
  | some q =>
    rw [hq] at hmap
    simp at hmap
    subst hmap
    exact ⟨ha, hq⟩

lemma validReturnLines_mem_of {form : ReturnForm} {items : List SaleItemRow}
    {it : SaleItemRow} {q : ℤ} (hit : it ∈ items)
    (hq : requestedQty form it = some q) : (it, q) ∈ validReturnLines form items := by
  unfold validReturnLines
  exact List.mem_filterMap.mpr ⟨it, hit, by rw [hq]; rfl⟩

lemma returnedMap_append {db db' : DBState} {sid : ℕ} {r : ReturnRow}
    (h : db'.returns = db.returns ++ [r]) (hs : r.sale_id = sid) (i : ℕ) :
    returnedMap db' sid i = returnedMap db sid i
      + ((r.items.filter (fun ri => ri.sale_item_id = i)).map
          (fun ri => ri.quantity)).sum := by
  unfold returnedMap
  rw [h]
  simp [List.filter_append, List.flatMap_append, hs]

lemma returnItems_sum_not_mem (form : ReturnForm) (i : ℕ) :
    ∀ items : List SaleItemRow, (∀ it ∈ items, ¬it.id = i) →
      (((returnItemsSpec form items).filter (fun ri => ri.sale_item_id = i)).map
        (fun ri => ri.quantity)).sum = 0 := by
  intro items
  induction items with
  | nil => intro _; rfl
  | cons hd rest ih =>
    intro hall
    have hhd := hall hd (by simp)
    have hrest := ih (fun it hit => hall it (by simp [hit]))
    cases hq : requestedQty form hd with
    | none =>
      rw [returnItemsSpec, validReturnLines_cons_none hq]
      exact hrest
    | some q =>
      rw [returnItemsSpec, validReturnLines_cons_some hq, List.map_cons]
      simp only [List.filter_cons]
      rw [if_neg (by simpa using hhd)]
      exact hrest

lemma returnItems_sum_mem (form : ReturnForm) :
    ∀ (items : List SaleItemRow) (it : SaleItemRow),
      (items.map (fun x => x.id)).Nodup → it ∈ items →
      (((returnItemsSpec form items).filter (fun ri => ri.sale_item_id = it.id)).map
        (fun ri => ri.quantity)).sum = (requestedQty form it).getD 0 := by
  intro items
  induction items with
  | nil => intro it _ hit; simp at hit
  | cons hd rest ih =>
    intro it hnd hit
    have hnd' : (∀ x ∈ rest, ¬x.id = hd.id) ∧ (rest.map (fun x => x.id)).Nodup := by
      simpa using hnd
    rcases List.mem_cons.mp hit with rfl | hmem
    · have hrest : ∀ x ∈ rest, ¬x.id = it.id := hnd'.1
      cases hq : requestedQty form it with
      | none =>
        rw [returnItemsSpec, validReturnLines_cons_none hq]
        simpa [hq] using returnItems_sum_not_mem form it.id rest hrest
      | some q =>
        rw [returnItemsSpec, validReturnLines_cons_some hq, List.map_cons]
        simp only [List.filter_cons]
        rw [if_pos (by simp)]
        rw [List.map_cons, List.sum_cons]
        have := returnItems_sum_not_mem form it.id rest hrest
        rw [returnItemsSpec] at this
        rw [this]
        simp [hq]
    · have hne : ¬hd.id = it.id := fun hcon => hnd'.1 it hmem hcon.symm
      have hrest := ih it hnd'.2 hmem
      cases hq : requestedQty form hd with
      | none =>
        rw [returnItemsSpec, validReturnLines_cons_none hq]
        exact hrest
      | some q =>
        rw [returnItemsSpec, validReturnLines_cons_some hq, List.map_cons]
        simp only [List.filter_cons]
        rw [if_neg (by simpa using hne)]
        exact hrest

lemma returns_process_done {user : Option ℕ} {sid : ℕ} {invoice : String}
    {form : ReturnForm} {db db' : DBState} {t : ℚ}
    (h : returns_process user sid invoice form db = (db', .done t)) :
    ∃ m db₁ ris, form.refund_method = some m
      ∧ process_return_items user invoice form (returnedMap db sid) db
          ((db.sale_items.filter (fun r => r.1 = sid)).map Prod.snd)
          = .ok (db₁, ris, t)
      ∧ ris ≠ []
      ∧ db' = { db₁ with returns := db₁.returns ++ [⟨sid, user, m, t, form.note, ris⟩] } := by
  unfold returns_process at h
  cases hm : form.refund_method with
  | none => rw [hm] at h; simp at h
  | some m =>
    rw [hm] at h
    dsimp only at h
    cases hp : process_return_items user invoice form (returnedMap db sid) db
        ((db.sale_items.filter (fun r => r.1 = sid)).map Prod.snd) with
    | error e => rw [hp] at h; simp at h
    | ok r =>
      obtain ⟨db₁, ris, total⟩ := r
      rw [hp] at h
      dsimp only at h
      by_cases hris : ris = []
      · rw [if_pos hris] at h
        simp at h
      · rw [if_neg hris] at h
        simp only [Prod.mk.injEq, RetOutcome.done.injEq] at h
        obtain ⟨h1, h2⟩ := h
        subst h2
        exact ⟨m, db₁, ris, rfl, rfl, hris, h1.symm⟩

lemma returns_process_noop {user : Option ℕ} {sid : ℕ} {invoice : String}
    {form : ReturnForm} {db db' : DBState}
    (h : returns_process user sid invoice form db = (db', .noop)) : db' = db := by
  unfold returns_process at h
  cases hm : form.refund_method with
  | none => rw [hm] at h; simp at h
  | some m =>
    rw [hm] at h
    dsimp only at h
    cases hp : process_return_items user invoice form (returnedMap db sid) db
        ((db.sale_items.filter (fun r => r.1 = sid)).map Prod.snd) with
    | error e => rw [hp] at h; simp at h
    | ok r =>
      obtain ⟨db₁, ris, total⟩ := r
      rw [hp] at h
      dsimp only at h
      by_cases hris : ris = []
      · rw [if_pos hris] at h
        simp only [Prod.mk.injEq] at h
        exact h.1.symm
      · rw [if_neg hris] at h
        simp at h

/-- C9, counterexample: a submission that names a refund method but
requests no quantities violates no per-line bound, yet the code commits no
`Return` header — it is a warning no-op.  The claim's unconditional
"otherwise … one Return header with its ReturnItem rows is committed" is
therefore false as stated. -/
theorem C9_counterexample :
    returns_process (some 1) 1 "2026-0001" emptyRetForm retExampleDB
      = (retExampleDB, .noop)
  ∧ retExampleDB.returns = [] := ⟨rfl, rfl⟩

/-- C9, amended: a return submission whose every requested line fits within
the remaining returnable quantity and that names a refund method and at
least one valid line commits one `Return` header whose rows carry refund
`(subtotal_with_gst / original_quantity) × qty` and restock each product's
aggregate stock by the returned quantities; any requested line beyond the
remaining returnable quantity rejects the whole submission with no side
effects, a submission with no valid lines is a no-op, and the cumulative
returned quantity per sale item never exceeds the original quantity. -/
theorem C9_returns_processing (user : Option ℕ) (sid : ℕ) (invoice : String)
    (form : ReturnForm) (db : DBState) :
    ((∃ it ∈ saleItemsOf db sid,
        ∃ q, form.qty it.id = some q ∧ 0 < q
          ∧ (it.quantity : ℤ) - returnedMap db sid it.id < q) →
      returns_process user sid invoice form db = (db, .failed))
  ∧ (∀ db', returns_process user sid invoice form db = (db', .noop) → db' = db)
  ∧ (∀ db' t, returns_process user sid invoice form db = (db', .done t) →
      ∃ m, form.refund_method = some m
      ∧ t = ((validReturnLines form (saleItemsOf db sid)).map
              (fun lq => lineRefund lq.1 lq.2)).sum
      ∧ db'.returns = db.returns
          ++ [⟨sid, user, m, t, form.note, returnItemsSpec form (saleItemsOf db sid)⟩]
      ∧ (∀ pid, findProduct db' pid
          = (findProduct db pid).map (fun x =>
              { x with stock := x.stock + restockFor form pid (saleItemsOf db sid) }))
      ∧ returnItemsSpec form (saleItemsOf db sid) ≠ [])
  ∧ (∀ db' t, returns_process user sid invoice form db = (db', .done t) →
      ((saleItemsOf db sid).map (fun it => it.id)).Nodup →
      ∀ it ∈ saleItemsOf db sid,
        returnedMap db sid it.id ≤ (it.quantity : ℤ) →
        returnedMap db' sid it.id ≤ (it.quantity : ℤ)) := by
  refine ⟨?_, fun db' h => returns_process_noop h, ?_, ?_⟩
  · intro hviol
    simp only [saleItemsOf] at hviol
    unfold returns_process
    cases hm : form.refund_method with
    | none => rfl
    | some m =>
      dsimp only
      rw [process_return_items_violation user invoice form (returnedMap db sid) _ db hviol]
  · intro db' t h
    simp only [saleItemsOf]
    obtain ⟨m, db₁, ris, hm, hp, hris, hdb'⟩ := returns_process_done h
    have hok := process_return_items_ok user invoice form (returnedMap db sid) _ db db₁
      ris t hp
    refine ⟨m, hm, hok.2.1, ?_, ?_, ?_⟩
    · rw [hdb']
      dsimp only
      rw [hok.2.2.2.1, hok.1]
    · intro pid
      have hstep : findProduct db' pid = findProduct db₁ pid := by subst hdb'; rfl
      rw [hstep]
      exact hok.2.2.1 pid
    · rw [← hok.1]
      exact hris
  · intro db' t h hnodup it hit hprior
    simp only [saleItemsOf] at hnodup hit
    obtain ⟨m, db₁, ris, hm, hp, hris, hdb'⟩ := returns_process_done h
    have hok := process_return_items_ok user invoice form (returnedMap db sid) _ db db₁
      ris t hp
    have hret : db'.returns = db.returns ++ [⟨sid, user, m, t, form.note, ris⟩] := by
      rw [hdb']
      dsimp only
      rw [hok.2.2.2.1]
    have happ := returnedMap_append hret rfl it.id
    rw [happ]
    rw [hok.1, returnItems_sum_mem form _ it hnodup hit]
    cases hq : requestedQty form it with
    | none => simpa using hprior
    | some q =>
      have hbound := hok.2.2.2.2.2 (it, q) (validReturnLines_mem_of hit hq)
      dsimp only at hbound
      simp only [Option.getD_some]
      omega

/-- Witness for C9 at a concrete input: returning 2 of 5 units of sale item
11 commits one header with a 200 refund, and the cumulative returned
quantity of item 11 stays within its original quantity 5. -/
theorem C9_witness :
    returns_process (some 1) 1 "2026-0001" retForm9 retExampleDB
      = (retDoneDB, .done 200)
  ∧ returnedMap retDoneDB 1 11 ≤ 5 := by
  have hrun : returns_process (some 1) 1 "2026-0001" retForm9 retExampleDB
      = (retDoneDB, .done 200) := by
    norm_num [returns_process, process_return_items, restock_line, retForm9,
      retExampleDB, retDoneDB, emptyDB, returnedMap, findProduct, updateProduct,
      SaleItemRow.subtotal_with_gst, SaleItemRow.gst_amount, quantize2]
    rfl
  refine ⟨hrun, ?_⟩
  refine (C9_returns_processing (some 1) 1 "2026-0001" retForm9 retExampleDB).2.2.2
    retDoneDB 200 hrun ?_ ⟨11, 7, 5, 100, 0, 500, none, none⟩ ?_ ?_
  · decide
  · norm_num [saleItemsOf, retExampleDB, emptyDB]
  · norm_num [returnedMap, retExampleDB, emptyDB]

/-! ## Helper lemmas: promotion engine -/

lemma quantize2_zero : quantize2 0 = 0 := by
  have h := quantize2_intCast_div 0
  simpa using h

lemma mkEntry_discount (cart : Cart) (subtotal : ℚ) (p : Promotion) :
    (mkEntry cart subtotal p).discount_amount
      = quantize2 (promoDiscount cart subtotal p) := rfl

lemma promoDiscount_unknown {p : Promotion} (h : p.params = PromoParams.unknown)
    (cart : Cart) (subtotal : ℚ) : promoDiscount cart subtotal p = 0 := by
  unfold promoDiscount
  rw [h]

lemma collectEntries_filter_stackable (today : ℤ) (cart : Cart) (subtotal : ℚ)
    (promos : List Promotion) :
    (collectEntries today cart subtotal promos).filter (fun e => e.stackable)
      = (promos.filter (fun p => is_valid_today today p && p.stackable
          && decide (0 < promoDiscount cart subtotal p))).map (mkEntry cart subtotal) := by
  unfold collectEntries
  rw [List.filter_map]
  rw [List.filter_filter]
  congr 1
  apply List.filter_congr
  intro p _
  by_cases hu : p.params = PromoParams.unknown
  · simp [keepsEntry, hu, promoDiscount_unknown hu]
  · simp only [keepsEntry, hu, Function.comp]
    cases hv : is_valid_today today p <;>
      cases hd : decide (0 < promoDiscount cart subtotal p) <;>
        cases hs : p.stackable <;>
          simp_all [mkEntry]

lemma collectEntries_filter_nonstackable (today : ℤ) (cart : Cart) (subtotal : ℚ)
    (promos : List Promotion) :
    (collectEntries today cart subtotal promos).filter (fun e => !e.stackable)
      = (promos.filter (fun p => is_valid_today today p && !p.stackable
          && decide (0 < promoDiscount cart subtotal p))).map (mkEntry cart subtotal) := by
  unfold collectEntries
  rw [List.filter_map]
  rw [List.filter_filter]
  congr 1
  apply List.filter_congr
  intro p _
  by_cases hu : p.params = PromoParams.unknown
  · simp [keepsEntry, hu, promoDiscount_unknown hu]
  · simp only [keepsEntry, hu, Function.comp]
    cases hv : is_valid_today today p <;>
      cases hd : decide (0 < promoDiscount cart subtotal p) <;>
        cases hs : p.stackable <;>
          simp_all [mkEntry]

lemma collectEntries_mem {today : ℤ} {cart : Cart} {subtotal : ℚ}
    {promos : List Promotion} {e : AppliedEntry}
    (h : e ∈ collectEntries today cart subtotal promos) :
    ∃ p ∈ promos, is_valid_today today p
      ∧ 0 < promoDiscount cart subtotal p ∧ e = mkEntry cart subtotal p := by
  unfold collectEntries at h
  obtain ⟨p, hp, rfl⟩ := List.mem_map.mp h
  have hf := List.mem_filter.mp hp
  have hk := hf.2
  simp only [keepsEntry, Bool.and_eq_true, decide_eq_true_eq] at hk
  exact ⟨p, hf.1, hk.1.1, hk.2, rfl⟩

lemma collectEntries_grid {today : ℤ} {cart : Cart} {subtotal : ℚ}
    {promos : List Promotion} {e : AppliedEntry}
    (h : e ∈ collectEntries today cart subtotal promos) :
    Grid2 e.discount_amount ∧ 0 ≤ e.discount_amount := by
  obtain ⟨p, -, -, hd, rfl⟩ := collectEntries_mem h
  exact ⟨quantize2_grid _, quantize2_nonneg (le_of_lt hd)⟩

lemma sum_map_q2_discount (cart : Cart) (subtotal : ℚ) (A : Promotion → Bool) :
    ∀ promos : List Promotion,
      ((promos.filter (fun p => A p && decide (0 < promoDiscount cart subtotal p))).map
          (fun p => quantize2 (promoDiscount cart subtotal p))).sum
        = ((promos.filter A).map (promoEntryValue cart subtotal)).sum := by
  intro promos
  induction promos with
  | nil => rfl
  | cons p ps ih =>
    by_cases hA : A p
    · by_cases hd : 0 < promoDiscount cart subtotal p
      · simp [List.filter_cons, hA, hd, promoEntryValue, ih]
      · simp [List.filter_cons, hA, hd, promoEntryValue, ih]
    · simp [List.filter_cons, hA, ih]

lemma foldl_max_q2_discount (cart : Cart) (subtotal : ℚ) (A : Promotion → Bool) :
    ∀ (promos : List Promotion) (a : ℚ), 0 ≤ a →
      ((promos.filter (fun p => A p && decide (0 < promoDiscount cart subtotal p))).map
          (fun p => quantize2 (promoDiscount cart subtotal p))).foldl max a
        = ((promos.filter A).map (promoEntryValue cart subtotal)).foldl max a := by
  intro promos
  induction promos with
  | nil => intro a _; rfl
  | cons p ps ih =>
    intro a ha
    by_cases hA : A p
    · by_cases hd : 0 < promoDiscount cart subtotal p
      · rw [List.filter_cons_of_pos (by simp [hA, hd]),
          List.filter_cons_of_pos (by simp [hA])]
        simp only [List.map_cons, List.foldl_cons, promoEntryValue, if_pos hd]
        exact ih _ (le_max_of_le_left ha)
      · rw [List.filter_cons_of_neg (by simp [hd]),
          List.filter_cons_of_pos (by simp [hA])]
        simp only [List.map_cons, List.foldl_cons, promoEntryValue, if_neg hd]
        rw [max_eq_left ha]
        exact ih a ha
    · rw [List.filter_cons_of_neg (by simp [hA]),
        List.filter_cons_of_neg (by simp [hA])]
      exact ih a ha

lemma firstMax_mem (x : AppliedEntry) (xs : List AppliedEntry) :
    firstMax x xs ∈ x :: xs := by
  unfold firstMax
  induction xs generalizing x with
  | nil => simp
  | cons y ys ih =>
    simp only [List.foldl_cons]
    by_cases h : x.discount_amount < y.discount_amount
    · rw [if_pos h]
      rcases List.mem_cons.mp (ih y) with h' | h' <;> simp [h']
    · rw [if_neg h]
      rcases List.mem_cons.mp (ih x) with h' | h' <;> simp [h']

lemma firstMax_discount (x : AppliedEntry) (xs : List AppliedEntry) :
    (firstMax x xs).discount_amount
      = xs.foldl (fun b e => max b e.discount_amount) x.discount_amount := by
  unfold firstMax
  induction xs generalizing x with
  | nil => rfl
  | cons y ys ih =>
    simp only [List.foldl_cons]
    by_cases h : x.discount_amount < y.discount_amount
    · rw [if_pos h, ih y, max_eq_right (le_of_lt h)]
    · rw [if_neg h, ih x, max_eq_left (not_lt.mp h)]

lemma foldl_max_start (l : List ℚ) (v : ℚ) (h : 0 ≤ v) :
    (v :: l).foldl max 0 = l.foldl max v := by
  simp only [List.foldl_cons]
  rw [max_eq_right h]

lemma foldl_max_zero : ∀ l : List ℚ, (∀ v ∈ l, v = 0) → l.foldl max 0 = 0 := by
  intro l
  induction l with
  | nil => intro _; rfl
  | cons a l ih =>
    intro h
    have ha : a = 0 := h a (by simp)
    simp only [List.foldl_cons, ha, max_self]
    exact ih (fun v hv => h v (by simp [hv]))

lemma cart_subtotal_nonneg {cart : Cart} (h : ∀ l ∈ cart, 0 ≤ l.2.price) :
    0 ≤ cart_subtotal cart := by
  rw [cart_subtotal_eq_sum]
  apply List.sum_nonneg
  intro x hx
  obtain ⟨l, hl, rfl⟩ := List.mem_map.mp hx
  exact quantize2_nonneg (mul_nonneg (h l hl) (by positivity))

lemma cart_subtotal_grid (cart : Cart) : Grid2 (cart_subtotal cart) := by
  rw [cart_subtotal_eq_sum]
  apply Grid2.sum
  intro x hx
  obtain ⟨l, hl, rfl⟩ := List.mem_map.mp hx
  exact quantize2_grid _

lemma promoDiscount_nil (p : Promotion) :
    promoDiscount [] (cart_subtotal []) p = 0 := by
  cases hp : p.params <;>
    simp [promoDiscount, hp, handle_percentage_item, handle_fixed_item,
      handle_bill_percentage, handle_buy_x_get_y, cart_subtotal, quantize2_zero]

lemma promoEntryValue_nonneg (cart : Cart) (s : ℚ) (p : Promotion) :
    0 ≤ promoEntryValue cart s p := by
  unfold promoEntryValue
  split
  · exact quantize2_nonneg (le_of_lt (by assumption))
  · exact le_refl 0

lemma stackableSum_nonneg (today : ℤ) (cart : Cart) (s : ℚ)
    (promos : List Promotion) : 0 ≤ stackableSum today cart s promos := by
  unfold stackableSum
  apply List.sum_nonneg
  intro q hq
  obtain ⟨p, _, rfl⟩ := List.mem_map.mp hq
  exact promoEntryValue_nonneg cart s p

lemma evaluate_promotions_spec (today : ℤ) (cart : Cart)
    (promotions : List Promotion) (hc : ¬(cart = [] ∨ promotions = []))
    (fe : List AppliedEntry)
    (hfe : fe =
      match (collectEntries today cart (cart_subtotal cart) promotions).filter
          (fun e => !e.stackable) with
      | [] => (collectEntries today cart (cart_subtotal cart) promotions).filter
          (fun e => e.stackable)
      | x :: xs =>
        if (firstMax x xs).discount_amount >
            ((((collectEntries today cart (cart_subtotal cart) promotions).filter
                (fun e => e.stackable)).map (fun e => e.discount_amount)).sum)
        then [firstMax x xs]
        else (collectEntries today cart (cart_subtotal cart) promotions).filter
          (fun e => e.stackable)) :
    evaluate_promotions today cart promotions =
      { applied := fe
        total_discount := min (quantize2 ((fe.map (fun e => e.discount_amount)).sum))
          (cart_subtotal cart)
        original_total := cart_subtotal cart
        discounted_total := quantize2 (cart_subtotal cart
          - min (quantize2 ((fe.map (fun e => e.discount_amount)).sum))
              (cart_subtotal cart)) } := by
  subst hfe
  unfold evaluate_promotions
  rw [if_neg hc]

/-- C1: in `evaluate_promotions`, with `S` the stackable sum and `B` the best
single non-stackable discount among the valid positive-discount promotions:
if `B > S` exactly one non-stackable entry is applied (with discount `B`),
otherwise exactly the stackable entries are applied; `total_discount` is the
applied discounts' sum capped at the cart subtotal, `discounted_total` is
subtotal minus `total_discount`, `original_total` is the subtotal, and both
`total_discount` and `discounted_total` are non-negative.  (Prices are
assumed non-negative and buy-x-get-y cycles positive, as the Python raises
on a zero cycle.) -/
theorem C1_promotion_stacking (today : ℤ) (cart : Cart)
    (promotions : List Promotion)
    (hprice : ∀ l ∈ cart, 0 ≤ l.2.price)
    (hcycle : ∀ p ∈ promotions, ∀ pid b f,
      p.params = PromoParams.buy_x_get_y pid b f → 0 < b + f) :
    (bestNonStackable today cart (cart_subtotal cart) promotions >
        stackableSum today cart (cart_subtotal cart) promotions →
      ∃ p ∈ promotions, is_valid_today today p ∧ p.stackable = false
        ∧ (evaluate_promotions today cart promotions).applied
            = [mkEntry cart (cart_subtotal cart) p]
        ∧ (mkEntry cart (cart_subtotal cart) p).discount_amount
            = bestNonStackable today cart (cart_subtotal cart) promotions) ∧
    (¬ (bestNonStackable today cart (cart_subtotal cart) promotions >
        stackableSum today cart (cart_subtotal cart) promotions) →
      (evaluate_promotions today cart promotions).applied
        = (promotions.filter (fun p => is_valid_today today p && p.stackable
            && decide (0 < promoDiscount cart (cart_subtotal cart) p))).map
            (mkEntry cart (cart_subtotal cart))) ∧
    (evaluate_promotions today cart promotions).total_discount
      = min (((evaluate_promotions today cart promotions).applied.map
          (fun e => e.discount_amount)).sum) (cart_subtotal cart) ∧
    (evaluate_promotions today cart promotions).discounted_total
      = cart_subtotal cart
        - (evaluate_promotions today cart promotions).total_discount ∧
    (evaluate_promotions today cart promotions).original_total
      = cart_subtotal cart ∧
    0 ≤ (evaluate_promotions today cart promotions).total_discount ∧
    0 ≤ (evaluate_promotions today cart promotions).discounted_total := by
  have hcs_nonneg : 0 ≤ cart_subtotal cart := cart_subtotal_nonneg hprice
  have hcs_grid := cart_subtotal_grid cart
  by_cases hne : cart = [] ∨ promotions = []
  · have heval : evaluate_promotions today cart promotions =
        { applied := [], total_discount := 0,
          original_total := cart_subtotal cart,
          discounted_total := cart_subtotal cart } := by
      unfold evaluate_promotions
      rw [if_pos hne]
      by_cases hc : cart = []
      · subst hc
        simp [cart_subtotal]
      · rw [if_neg hc]
    have hSB : stackableSum today cart (cart_subtotal cart) promotions = 0
        ∧ bestNonStackable today cart (cart_subtotal cart) promotions = 0 := by
      rcases hne with hc | hp
      · subst hc
        constructor
        · unfold stackableSum
          apply List.sum_eq_zero
          intro q hq
          obtain ⟨p, _, rfl⟩ := List.mem_map.mp hq
          simp [promoEntryValue, promoDiscount_nil p]
        · unfold bestNonStackable
          apply foldl_max_zero
          intro v hv
          obtain ⟨p, _, rfl⟩ := List.mem_map.mp hv
          simp [promoEntryValue, promoDiscount_nil p]
      · subst hp
        constructor <;> simp [stackableSum, bestNonStackable]
    have hfil : (promotions.filter (fun p => is_valid_today today p && p.stackable
        && decide (0 < promoDiscount cart (cart_subtotal cart) p))) = [] := by
      rcases hne with hc | hp
      · subst hc
        apply List.filter_eq_nil_iff.mpr
        intro p _
        simp [promoDiscount_nil p]
      · subst hp
        rfl
    refine ⟨?_, ?_, ?_, ?_, ?_, ?_, ?_⟩
    · intro hBS
      rw [hSB.1, hSB.2] at hBS
      exact absurd hBS (lt_irrefl 0)
    · intro _
      rw [heval, hfil]
      rfl
    · rw [heval]
      dsimp only
      simp only [List.map_nil, List.sum_nil]
      exact (min_eq_left hcs_nonneg).symm
    · rw [heval]
      dsimp only
      rw [sub_zero]
    · rw [heval]
    · rw [heval]
    · rw [heval]
      exact hcs_nonneg
  · have hS : (((collectEntries today cart (cart_subtotal cart) promotions).filter
          (fun e => e.stackable)).map (fun e => e.discount_amount)).sum
        = stackableSum today cart (cart_subtotal cart) promotions := by
      rw [collectEntries_filter_stackable, List.map_map]
      simp only [Function.comp_def, mkEntry_discount]
      exact sum_map_q2_discount cart (cart_subtotal cart)
        (fun p => is_valid_today today p && p.stackable) promotions
    have hB : ∀ x xs,
        (collectEntries today cart (cart_subtotal cart) promotions).filter
          (fun e => !e.stackable) = x :: xs →
        (firstMax x xs).discount_amount
          = bestNonStackable today cart (cart_subtotal cart) promotions := by
      intro x xs hx
      have hmx : x ∈ (collectEntries today cart (cart_subtotal cart) promotions).filter
          (fun e => !e.stackable) := by
        rw [hx]
        simp
      have hx0 : 0 ≤ x.discount_amount :=
        (collectEntries_grid (List.mem_filter.mp hmx).1).2
      have hmap : (x :: xs).map (fun e => e.discount_amount)
          = ((promotions.filter (fun p => is_valid_today today p && !p.stackable
              && decide (0 < promoDiscount cart (cart_subtotal cart) p))).map
              (mkEntry cart (cart_subtotal cart))).map (fun e => e.discount_amount) := by
        rw [← hx, collectEntries_filter_nonstackable]
      calc (firstMax x xs).discount_amount
          = xs.foldl (fun b e => max b e.discount_amount) x.discount_amount :=
            firstMax_discount x xs
        _ = (xs.map (fun e => e.discount_amount)).foldl max x.discount_amount := by
            rw [List.foldl_map]
        _ = (x.discount_amount :: xs.map (fun e => e.discount_amount)).foldl max 0 :=
            (foldl_max_start _ _ hx0).symm
        _ = ((x :: xs).map (fun e => e.discount_amount)).foldl max 0 := by
            rw [List.map_cons]
        _ = bestNonStackable today cart (cart_subtotal cart) promotions := by
            rw [hmap, List.map_map]
            simp only [Function.comp_def, mkEntry_discount]
            exact foldl_max_q2_discount cart (cart_subtotal cart)
              (fun p => is_valid_today today p && !p.stackable) promotions 0 le_rfl
    have hB0 : (collectEntries today cart (cart_subtotal cart) promotions).filter
          (fun e => !e.stackable) = [] →
        bestNonStackable today cart (cart_subtotal cart) promotions = 0 := by
      intro hx
      rw [collectEntries_filter_nonstackable] at hx
      have hfil' := List.map_eq_nil_iff.mp hx
      have h := foldl_max_q2_discount cart (cart_subtotal cart)
        (fun p => is_valid_today today p && !p.stackable) promotions 0 le_rfl
      rw [hfil'] at h
      unfold bestNonStackable
      rw [← h]
      rfl
    have hSnn : 0 ≤ stackableSum today cart (cart_subtotal cart) promotions :=
      stackableSum_nonneg today cart (cart_subtotal cart) promotions
    have htail : ∀ fe : List AppliedEntry,
        (∀ e ∈ fe, e ∈ collectEntries today cart (cart_subtotal cart) promotions) →
        evaluate_promotions today cart promotions =
          { applied := fe
            total_discount := min
              (quantize2 ((fe.map (fun e => e.discount_amount)).sum)) (cart_subtotal cart)
            original_total := cart_subtotal cart
            discounted_total := quantize2 (cart_subtotal cart
              - min (quantize2 ((fe.map (fun e => e.discount_amount)).sum))
                  (cart_subtotal cart)) } →
        (evaluate_promotions today cart promotions).total_discount
            = min (((evaluate_promotions today cart promotions).applied.map
                (fun e => e.discount_amount)).sum) (cart_subtotal cart)
          ∧ (evaluate_promotions today cart promotions).discounted_total
            = cart_subtotal cart
              - (evaluate_promotions today cart promotions).total_discount
          ∧ (evaluate_promotions today cart promotions).original_total
            = cart_subtotal cart
          ∧ 0 ≤ (evaluate_promotions today cart promotions).total_discount
          ∧ 0 ≤ (evaluate_promotions today cart promotions).discounted_total := by
      intro fe hsub heval
      have hgrid : Grid2 ((fe.map (fun e => e.discount_amount)).sum) := by
        apply Grid2.sum
        intro q hq
        obtain ⟨e, he, rfl⟩ := List.mem_map.mp hq
        exact (collectEntries_grid (hsub e he)).1
      have hnonneg : 0 ≤ (fe.map (fun e => e.discount_amount)).sum := by
        apply List.sum_nonneg
        intro q hq
        obtain ⟨e, he, rfl⟩ := List.mem_map.mp hq
        exact (collectEntries_grid (hsub e he)).2
      have hq2 : quantize2 ((fe.map (fun e => e.discount_amount)).sum)
          = (fe.map (fun e => e.discount_amount)).sum := Grid2.quantize2_self hgrid
      have hmin_nonneg : 0 ≤ min
          (quantize2 ((fe.map (fun e => e.discount_amount)).sum)) (cart_subtotal cart) :=
        le_min (by rw [hq2]; exact hnonneg) hcs_nonneg
      have hdisc_eq : quantize2 (cart_subtotal cart
            - min (quantize2 ((fe.map (fun e => e.discount_amount)).sum))
                (cart_subtotal cart))
          = cart_subtotal cart
            - min (quantize2 ((fe.map (fun e => e.discount_amount)).sum))
                (cart_subtotal cart) :=
        Grid2.quantize2_self (hcs_grid.sub ((quantize2_grid _).min hcs_grid))
      rw [heval]
      dsimp only
      refine ⟨by rw [hq2], hdisc_eq, rfl, hmin_nonneg, ?_⟩
      rw [hdisc_eq]
      exact sub_nonneg.mpr (min_le_right _ _)
    cases hnee : (collectEntries today cart (cart_subtotal cart) promotions).filter
        (fun e => !e.stackable) with
    | nil =>
      have heval := evaluate_promotions_spec today cart promotions hne
        ((collectEntries today cart (cart_subtotal cart) promotions).filter
          (fun e => e.stackable)) (by rw [hnee])
      have hsub : ∀ e ∈ (collectEntries today cart (cart_subtotal cart) promotions).filter
            (fun e => e.stackable),
          e ∈ collectEntries today cart (cart_subtotal cart) promotions :=
        fun e he => (List.mem_filter.mp he).1
      have htl := htail _ hsub heval
      refine ⟨?_, ?_, htl.1, htl.2.1, htl.2.2.1, htl.2.2.2.1, htl.2.2.2.2⟩
      · intro hBS
        exact absurd hBS (not_lt.mpr (by rw [hB0 hnee]; exact hSnn))
      · intro _
        rw [heval]
        dsimp only
        rw [collectEntries_filter_stackable]
    | cons x xs =>
      by_cases hcond : (firstMax x xs).discount_amount >
          ((((collectEntries today cart (cart_subtotal cart) promotions).filter
              (fun e => e.stackable)).map (fun e => e.discount_amount)).sum)
      · have heval := evaluate_promotions_spec today cart promotions hne
          [firstMax x xs] (by rw [hnee]; dsimp only; rw [if_pos hcond])
        have hmem : firstMax x xs ∈
            (collectEntries today cart (cart_subtotal cart) promotions).filter
              (fun e => !e.stackable) := by
          rw [hnee]
          exact firstMax_mem x xs
        have hment := List.mem_filter.mp hmem
        obtain ⟨p, hpmem, hpvalid, hpd, hpeq⟩ := collectEntries_mem hment.1
        have hsub : ∀ e ∈ [firstMax x xs],
            e ∈ collectEntries today cart (cart_subtotal cart) promotions := by
          intro e he
          simp only [List.mem_singleton] at he
          subst he
          exact hment.1
        have htl := htail _ hsub heval
        have hBS' : bestNonStackable today cart (cart_subtotal cart) promotions >
            stackableSum today cart (cart_subtotal cart) promotions := by
          rw [← hB x xs hnee, ← hS]
          exact hcond
        refine ⟨?_, ?_, htl.1, htl.2.1, htl.2.2.1, htl.2.2.2.1, htl.2.2.2.2⟩
        · intro _
          refine ⟨p, hpmem, hpvalid, ?_, ?_, ?_⟩
          · have hst := hment.2
            rw [hpeq] at hst
            simpa [mkEntry] using hst
          · rw [heval]
            dsimp only
            rw [hpeq]
          · rw [← hpeq]
            exact hB x xs hnee
        · intro hnBS
          exact absurd hBS' hnBS
      · have heval := evaluate_promotions_spec today cart promotions hne
          ((collectEntries today cart (cart_subtotal cart) promotions).filter
            (fun e => e.stackable)) (by rw [hnee]; dsimp only; rw [if_neg hcond])
        have hsub : ∀ e ∈ (collectEntries today cart (cart_subtotal cart) promotions).filter
              (fun e => e.stackable),
            e ∈ collectEntries today cart (cart_subtotal cart) promotions :=
          fun e he => (List.mem_filter.mp he).1
        have htl := htail _ hsub heval
        refine ⟨?_, ?_, htl.1, htl.2.1, htl.2.2.1, htl.2.2.2.1, htl.2.2.2.2⟩
        · intro hBS
          apply absurd hBS
          rw [gt_iff_lt, not_lt, ← hB x xs hnee, ← hS]
          exact not_lt.mp hcond
        · intro _
          rw [heval]
          dsimp only
          rw [collectEntries_filter_stackable]

/-- C1 witness: on a one-line cart of one unit at 200, with a stackable
5%-off-bill promotion (discount 10) next to a non-stackable 20%-off-bill
promotion (discount 40): the best non-stackable discount beats the stackable
sum and the engine applies exactly the single non-stackable entry, whose
discount is that best value. -/
theorem C1_witness :
    (∀ l ∈ C1cart, 0 ≤ l.2.price) ∧
    ∃ p ∈ C1promos, is_valid_today 0 p ∧ p.stackable = false
      ∧ (evaluate_promotions 0 C1cart C1promos).applied
          = [mkEntry C1cart (cart_subtotal C1cart) p]
      ∧ (mkEntry C1cart (cart_subtotal C1cart) p).discount_amount
          = bestNonStackable 0 C1cart (cart_subtotal C1cart) C1promos := by
  constructor
  · intro l hl
    simp only [C1cart, List.mem_singleton] at hl
    subst hl
    norm_num
  · refine (C1_promotion_stacking 0 C1cart C1promos ?_ ?_).1 ?_
    · intro l hl
      simp only [C1cart, List.mem_singleton] at hl
      subst hl
      norm_num
    · intro p hp pid b f hpar
      simp only [C1promos, List.mem_cons, List.not_mem_nil, or_false] at hp
      rcases hp with rfl | rfl <;> simp at hpar
    · norm_num [bestNonStackable, stackableSum, C1promos, C1cart, cart_subtotal,
        promoEntryValue, promoDiscount, handle_bill_percentage, is_valid_today,
        is_valid_today.is_valid_dates, quantize2, List.filter, List.foldl]

end Bill
